import Mathlib

/-!
Shallow embedding of `src/client.py` (the `musing` interactive client).

The client opens one TCP socket, reads a length-prefixed greeting, and then
loops: read a command name and a command-specific list of prompted fields
from the console, serialize them to JSON, send the message framed by a
4-byte big-endian length prefix, read one framed response, and print it.

Modelling conventions:
* console input is a list of lines (one `input()` call consumes one line);
* the server-to-client byte stream is a total function `Nat → Nat` giving
  the byte at each stream offset, so a blocking `recv` always has data; a
  `recv k` in the main model is eager: it returns the `k` requested bytes.
  The response-body read loop of lines 142-146 is additionally modelled at
  byte level with an explicit chunk schedule (`readBody` below), because
  that loop's behaviour under partial reads is claim-relevant;
* Python exceptions (`EOFError` from `input()`, `ValueError` from `int()`,
  `json.JSONDecodeError` from `json.loads`) terminate the program; they are
  modelled as a halt, never as a recovery.
-/

namespace Musing

/-! ### Python string helpers: `.strip()` and `.split(";")`

Defined on character lists by structural recursion so that every witness
evaluates inside the kernel. -/

/-- ASCII whitespace stripped by `str.strip()` (Python also strips some
Unicode spaces, which no input in this development uses). -/
def pyWs (c : Char) : Bool :=
  c = ' ' || c = '\t' || c = '\n' || c = '\r' || c.toNat = 11 || c.toNat = 12

/-- Python `s.strip()`. -/
def pyStrip (s : String) : String :=
  String.mk (((s.data.dropWhile pyWs).reverse.dropWhile pyWs).reverse)

/-- Splitting on `;`, accumulating the current piece in reverse. -/
def splitSemiAux : List Char → List Char → List String
  | [], cur => [String.mk cur.reverse]
  | c :: cs, cur =>
      if c = ';' then String.mk cur.reverse :: splitSemiAux cs []
      else splitSemiAux cs (c :: cur)

/-- Python `s.split(";")` (note `"".split(";") == [""]`). -/
def pySplitSemi (s : String) : List String := splitSemiAux s.data []

/-! ### Python `int()` (used as `int(input(...).strip())`)

Models CPython's `int(str)`: optional surrounding whitespace, an optional
sign, then a nonempty digit run in which single underscores may appear
between digits.  (Non-ASCII decimal digits, which CPython also accepts,
are not modelled; no input in this development uses them.) -/

/-- Digit run after the first digit: single underscores allowed between digits. -/
def parseDigits : List Char → Nat → Option Nat
  | [], acc => some acc
  | '_' :: c :: cs, acc =>
      if c.isDigit then parseDigits cs (acc * 10 + (c.toNat - 48)) else none
  | ['_'], _ => none
  | c :: cs, acc =>
      if c.isDigit then parseDigits cs (acc * 10 + (c.toNat - 48)) else none

/-- A nonempty digit run (no leading underscore). -/
def parseStart : List Char → Option Nat
  | [] => none
  | c :: cs => if c.isDigit then parseDigits cs (c.toNat - 48) else none

/-- Optional sign, then digits. -/
def pythonIntCore : List Char → Option Int
  | [] => none
  | '+' :: cs => (parseStart cs).map (fun n => (n : Int))
  | '-' :: cs => (parseStart cs).map (fun n => -(n : Int))
  | cs => (parseStart cs).map (fun n => (n : Int))

/-- Python `int(s)`; `none` models an uncaught `ValueError`. -/
def pythonInt (s : String) : Option Int := pythonIntCore (pyStrip s).data

/-! ### JSON values and `json.dumps`

Request dictionaries are modelled as association lists in insertion order
(Python dicts preserve insertion order).  `dumps` mirrors `json.dumps` with
its default arguments: separators `", "` and `": "`, and `ensure_ascii`
escaping of every character outside `0x20..0x7e` (astral characters become
UTF-16 surrogate pairs). -/

inductive JVal : Type
  | str (s : String)
  | int (n : Int)
  | arr (xs : List JVal)
  | obj (fields : List (String × JVal))
deriving Repr

/-- Lowercase hex digit. -/
def toHexDigit (n : Nat) : Char :=
  if n < 10 then Char.ofNat (48 + n) else Char.ofNat (87 + n)

/-- Four lowercase hex digits, as in `\uXXXX` escapes. -/
def hex4 (n : Nat) : String :=
  String.mk [toHexDigit (n / 4096 % 16), toHexDigit (n / 256 % 16),
             toHexDigit (n / 16 % 16), toHexDigit (n % 16)]

/-- `ensure_ascii` escaping of one character. -/
def escapeChar (c : Char) : String :=
  if c = '"' then "\\\""
  else if c = '\\' then "\\\\"
  else if c = '\n' then "\\n"
  else if c = '\t' then "\\t"
  else if c = '\r' then "\\r"
  else if c.toNat = 8 then "\\b"
  else if c.toNat = 12 then "\\f"
  else if c.toNat < 32 ∨ 127 ≤ c.toNat then
    if c.toNat < 65536 then "\\u" ++ hex4 c.toNat
    else
      "\\u" ++ hex4 (55296 + (c.toNat - 65536) / 1024)
        ++ "\\u" ++ hex4 (56320 + (c.toNat - 65536) % 1024)
  else String.mk [c]

/-- Concatenation of a list of strings. -/
def concatStrings : List String → String
  | [] => ""
  | x :: xs => x ++ concatStrings xs

/-- JSON string literal with `ensure_ascii` escaping. -/
def dumpString (s : String) : String :=
  "\"" ++ concatStrings (s.data.map escapeChar) ++ "\""

/-- Python's default item separator. -/
def joinSep : List String → String
  | [] => ""
  | [x] => x
  | x :: xs => x ++ ", " ++ joinSep xs

mutual

/-- `json.dumps` with default arguments. -/
def dumps : JVal → String
  | JVal.str s => dumpString s
  | JVal.int n => toString n
  | JVal.arr xs => "[" ++ joinSep (dumpsList xs) ++ "]"
  | JVal.obj fs => "\x7b" ++ joinSep (dumpsFields fs) ++ "\x7d"

/-- Serialize the elements of an array. -/
def dumpsList : List JVal → List String
  | [] => []
  | x :: xs => dumps x :: dumpsList xs

/-- Serialize the key/value pairs of an object (`": "` separator). -/
def dumpsFields : List (String × JVal) → List String
  | [] => []
  | (k, v) :: fs => (dumpString k ++ ": " ++ dumps v) :: dumpsFields fs

end

/-- Keys of a JSON object, in order. -/
def jKeys : JVal → List String
  | JVal.obj fs => fs.map Prod.fst
  | _ => []

/-- First value bound to a key in a JSON object. -/
def jGet (j : JVal) (k : String) : Option JVal :=
  match j with
  | JVal.obj fs => (fs.find? (fun f => f.1 = k)).map Prod.snd
  | _ => none

/-! ### Bytes: `bytes(msg, "utf8")`, `int.to_bytes` / `int.from_bytes` -/

/-- UTF-8 encoding of one scalar value. -/
def utf8EncodeChar (c : Char) : List Nat :=
  let n := c.toNat
  if n < 128 then [n]
  else if n < 2048 then [192 + n / 64, 128 + n % 64]
  else if n < 65536 then [224 + n / 4096, 128 + n / 64 % 64, 128 + n % 64]
  else [240 + n / 262144, 128 + n / 4096 % 64, 128 + n / 64 % 64, 128 + n % 64]

/-- `bytes(s, "utf8")` as a list of byte values. -/
def utf8Encode (s : String) : List Nat := (s.data.map utf8EncodeChar).flatten

/-- `n.to_bytes(4, "big")`.  (CPython raises `OverflowError` for
`n ≥ 2^32`; theorems that decode the prefix assume `n < 2^32`.) -/
def toBytesBE4 (n : Nat) : List Nat :=
  [n / 16777216 % 256, n / 65536 % 256, n / 256 % 256, n % 256]

/-- `int.from_bytes(bs, "big")`. -/
def fromBytesBE (l : List Nat) : Nat := l.foldl (fun a b => a * 256 + b) 0

/-! ### Acceptance model of `json.loads`

The client calls `print(json.loads(response))` on every received message;
a response that is not valid JSON raises an uncaught `JSONDecodeError` and
kills the client.  Only acceptance (does `loads` raise?) is observable in
the claims, so `json.loads` from the standard library is modelled as a
byte-level validity check: the bytes must be valid UTF-8 and must parse as
one JSON value (object / array / string / number / literal, plus CPython's
default `NaN` / `Infinity` / `-Infinity`) surrounded by optional
whitespace.  All JSON structure is ASCII, so the syntax scan can stay on
bytes; bytes ≥ 0x80 can occur only inside strings. -/

/-- UTF-8 continuation byte. -/
def contB (b : Nat) : Bool := decide (128 ≤ b) && decide (b < 192)

/-- Validity of a UTF-8 byte sequence (no overlong forms, no surrogates,
no scalar values above `0x10FFFF`), as checked by `bytes.decode("utf-8")`. -/
def utf8Valid : List Nat → Bool
  | [] => true
  | b :: bs =>
    if b < 128 then utf8Valid bs
    else if b < 194 then false
    else if b < 224 then
      match bs with
      | b1 :: bs' => contB b1 && utf8Valid bs'
      | [] => false
    else if b < 240 then
      match bs with
      | b1 :: b2 :: bs' =>
          contB b1 && contB b2 && !(b = 224 && b1 < 160) &&
            !(b = 237 && 160 ≤ b1) && utf8Valid bs'
      | _ => false
    else if b < 245 then
      match bs with
      | b1 :: b2 :: b3 :: bs' =>
          contB b1 && contB b2 && contB b3 && !(b = 240 && b1 < 144) &&
            !(b = 244 && 144 ≤ b1) && utf8Valid bs'
      | _ => false
    else false

/-- JSON whitespace bytes: space, tab, newline, carriage return. -/
def isWsB (b : Nat) : Bool := b = 32 || b = 9 || b = 10 || b = 13

/-- Skip JSON whitespace. -/
def skipWsB : List Nat → List Nat
  | b :: bs => if isWsB b then skipWsB bs else b :: bs
  | [] => []

/-- ASCII decimal digit byte. -/
def digitB (b : Nat) : Bool := decide (48 ≤ b) && decide (b ≤ 57)

/-- ASCII hex digit byte. -/
def hexDigB (b : Nat) : Bool :=
  digitB b || (decide (65 ≤ b) && decide (b ≤ 70)) || (decide (97 ≤ b) && decide (b ≤ 102))

/-- Skip a digit run. -/
def skipDigitsB : List Nat → List Nat
  | b :: bs => if digitB b then skipDigitsB bs else b :: bs
  | [] => []

/-- Scan a JSON string body after the opening quote; returns the rest after
the closing quote.  Raw control bytes below 0x20 are rejected (strict mode),
and only the JSON escape forms are allowed after a backslash. -/
def jStringB : List Nat → Option (List Nat)
  | [] => none
  | 34 :: r => some r
  | 92 :: e :: r =>
      if e = 34 ∨ e = 92 ∨ e = 47 ∨ e = 98 ∨ e = 102 ∨ e = 110 ∨ e = 114 ∨ e = 116 then
        jStringB r
      else if e = 117 then
        match r with
        | a :: b :: c :: d :: r' =>
            if hexDigB a && hexDigB b && hexDigB c && hexDigB d then jStringB r' else none
        | _ => none
      else none
  | b :: r => if b < 32 then none else jStringB r

/-- Optional fraction part `.digits`. -/
def jFrac : List Nat → Option (List Nat)
  | 46 :: b :: r => if digitB b then some (skipDigitsB r) else none
  | [46] => none
  | cs => some cs

/-- Optional exponent part `(e|E)(+|-)?digits`. -/
def jExp : List Nat → Option (List Nat)
  | [] => some []
  | e :: rest =>
    if e = 101 ∨ e = 69 then
      match rest with
      | [] => none
      | s :: r =>
        if s = 43 ∨ s = 45 then
          match r with
          | b :: r' => if digitB b then some (skipDigitsB r') else none
          | [] => none
        else if digitB s then some (skipDigitsB r) else none
    else some (e :: rest)

/-- Fraction then exponent. -/
def jNumTail (cs : List Nat) : Option (List Nat) := (jFrac cs).bind jExp

/-- Unsigned number: `0` or a nonzero-led digit run, then fraction/exponent. -/
def jIntB : List Nat → Option (List Nat)
  | [] => none
  | 48 :: r => jNumTail r
  | b :: r => if digitB b then jNumTail (skipDigitsB r) else none

mutual

/-- Scan one JSON value; fuel bounds the recursion depth and is chosen large
enough (relative to the input length) never to run out on valid input. -/
def jValueB : Nat → List Nat → Option (List Nat)
  | 0, _ => none
  | _ + 1, [] => none
  | fuel + 1, b :: bs =>
    if b = 34 then jStringB bs
    else if b = 91 then jArrTail fuel (skipWsB bs)
    else if b = 123 then jObjTail fuel (skipWsB bs)
    else if b = 116 then
      match bs with
      | 114 :: 117 :: 101 :: r => some r
      | _ => none
    else if b = 102 then
      match bs with
      | 97 :: 108 :: 115 :: 101 :: r => some r
      | _ => none
    else if b = 110 then
      match bs with
      | 117 :: 108 :: 108 :: r => some r
      | _ => none
    else if b = 78 then
      match bs with
      | 97 :: 78 :: r => some r
      | _ => none
    else if b = 73 then
      match bs with
      | 110 :: 102 :: 105 :: 110 :: 105 :: 116 :: 121 :: r => some r
      | _ => none
    else if b = 45 then
      match bs with
      | 73 :: 110 :: 102 :: 105 :: 110 :: 105 :: 116 :: 121 :: r => some r
      | bs' => jIntB bs'
    else jIntB (b :: bs)

/-- After `[` and whitespace: empty array or element list. -/
def jArrTail : Nat → List Nat → Option (List Nat)
  | 0, _ => none
  | _ + 1, 93 :: r => some r
  | fuel + 1, cs => jArrRest fuel cs

/-- Element, then `,` and another element or `]`. -/
def jArrRest : Nat → List Nat → Option (List Nat)
  | 0, _ => none
  | fuel + 1, cs =>
    match jValueB fuel cs with
    | none => none
    | some r =>
      match skipWsB r with
      | 93 :: r' => some r'
      | 44 :: r' => jArrRest fuel (skipWsB r')
      | _ => none

/-- After an opening brace and whitespace: empty object or member list. -/
def jObjTail : Nat → List Nat → Option (List Nat)
  | 0, _ => none
  | _ + 1, 125 :: r => some r
  | fuel + 1, cs => jObjRest fuel cs

/-- Member `"key": value`, then `,` and another member or a closing brace. -/
def jObjRest : Nat → List Nat → Option (List Nat)
  | 0, _ => none
  | fuel + 1, cs =>
    match cs with
    | 34 :: r =>
      match jStringB r with
      | none => none
      | some r2 =>
        match skipWsB r2 with
        | 58 :: r3 =>
          match jValueB fuel (skipWsB r3) with
          | none => none
          | some r4 =>
            match skipWsB r4 with
            | 125 :: r5 => some r5
            | 44 :: r5 => jObjRest fuel (skipWsB r5)
            | _ => none
        | _ => none
    | _ => none

end

/-- Does `json.loads` accept these bytes (UTF-8 decode plus one JSON value
with only surrounding whitespace)? -/
def jsonValid (bs : List Nat) : Bool :=
  utf8Valid bs &&
    match jValueB (4 * bs.length + 4) (skipWsB bs) with
    | some r => (skipWsB r).isEmpty
    | none => false

/-! ### Console-reading phase of one loop iteration

Each branch of the `elif` chain reads a fixed script of `input(...)` calls.
This phase is modelled by a monad `M` over the remaining console lines that
also records the `(prompt, raw line)` pairs of the `input` calls it makes,
and fails like Python does: `Halt.eof` when `input()` has no line left
(`EOFError`), `Halt.valueError` when `int()` rejects its argument.  A
failure also reports the prompts issued before it, so the event trace of a
crashing iteration stays faithful. -/

/-- The ways the console-reading phase can raise. -/
inductive Halt : Type
  | eof
  | valueError
deriving Repr, DecidableEq

/-- Console-reading computations: remaining lines in, result plus remaining
lines plus issued `(prompt, raw line)` pairs out. -/
def M (α : Type) : Type :=
  List String → Except (Halt × List (String × String)) (α × List String × List (String × String))

/-- Sequencing on `M`: concatenates the prompt logs. -/
def mbind {α β : Type} (x : M α) (f : α → M β) : M β := fun lines =>
  match x lines with
  | .error e => .error e
  | .ok (a, l2, evs) =>
    match f a l2 with
    | .error (h2, evs2) => .error (h2, evs ++ evs2)
    | .ok (b, l3, evs2) => .ok (b, l3, evs ++ evs2)

/-- Pure value: no lines consumed, no prompts issued. -/
def mpure {α : Type} (a : α) : M α := fun lines => .ok (a, lines, [])

instance : Monad M where
  pure := mpure
  bind := mbind

/-- `input(p).strip()`: consume one line and strip it; `EOFError` when the
console is exhausted. -/
def inp (p : String) : M String := fun lines =>
  match lines with
  | [] => .error (Halt.eof, [])
  | l :: ls => .ok (pyStrip l, ls, [(p, l)])

/-- An uncaught exception inside the reading phase. -/
def throwHalt {α : Type} (h : Halt) : M α := fun _ => .error (h, [])

/-- `int(input(p).strip())`. -/
def inpInt (p : String) : M Int :=
  mbind (inp p) (fun s => (pythonInt s).elim (throwHalt Halt.valueError) mpure)

/-- Filter dictionaries of the `select` / `unique` branches:
`for _ in range(n): ... append({"kind": "regex", "tag": tag, "regex": regex})`. -/
def readFilters : Nat → M (List JVal)
  | 0 => mpure []
  | n + 1 =>
    mbind (inp "tag: ") (fun tag =>
    mbind (inp "regex: ") (fun regex =>
    mbind (readFilters n) (fun rest =>
    mpure (JVal.obj [("kind", JVal.str "regex"), ("tag", JVal.str tag),
                     ("regex", JVal.str regex)] :: rest))))

/-- Comparator dictionaries of the `select` branch. -/
def readComparators : Nat → M (List JVal)
  | 0 => mpure []
  | n + 1 =>
    mbind (inp "tag: ") (fun t =>
    mbind (readComparators n) (fun rest =>
    mpure (JVal.obj [("tag", JVal.str t)] :: rest)))

/-- Group-by tags of the `unique` branch. -/
def readGroupBy : Nat → M (List JVal)
  | 0 => mpure []
  | n + 1 =>
    mbind (inp "tag: ") (fun t =>
    mbind (readGroupBy n) (fun rest =>
    mpure (JVal.str t :: rest)))

/-- `ls` branch. -/
def lsBody : M (Option JVal) :=
  mbind (inp "dir: ") (fun dir =>
  mpure (some (JVal.obj [("kind", JVal.str "ls"), ("dir", JVal.str dir)])))

/-- `metadata` branch. -/
def metadataBody : M (Option JVal) :=
  mbind (inp "paths: ") (fun paths =>
  mbind (inp "tags: ") (fun tags =>
  mpure (some (JVal.obj [("kind", JVal.str "metadata"),
    ("paths", JVal.arr ((pySplitSemi paths).map JVal.str)),
    ("tags", JVal.arr ((pySplitSemi tags).map JVal.str))]))))

/-- `select` branch. -/
def selectBody : M (Option JVal) :=
  mbind (inpInt "n_filters: ") (fun nf =>
  mbind (readFilters nf.toNat) (fun filters =>
  mbind (inpInt "n_comparators: ") (fun nc =>
  mbind (readComparators nc.toNat) (fun comparators =>
  mpure (some (JVal.obj [("kind", JVal.str "select"),
    ("filters", JVal.arr filters), ("comparators", JVal.arr comparators)]))))))

/-- `unique` branch. -/
def uniqueBody : M (Option JVal) :=
  mbind (inp "tag: ") (fun tag =>
  mbind (inpInt "n_filters: ") (fun nf =>
  mbind (readFilters nf.toNat) (fun filters =>
  mbind (inpInt "n_group_by: ") (fun ng =>
  mbind (readGroupBy ng.toNat) (fun group_by =>
  mpure (some (JVal.obj [("kind", JVal.str "unique"), ("tag", JVal.str tag),
    ("filters", JVal.arr filters), ("group_by", JVal.arr group_by)])))))))

/-- `addqueue` branch: the `"pos"` key is added only when `pos >= 0`. -/
def addqueueBody : M (Option JVal) :=
  mbind (inp "paths: ") (fun paths =>
  mbind (inpInt "pos: ") (fun pos =>
  mpure (some (JVal.obj
    ([("kind", JVal.str "addqueue"),
      ("paths", JVal.arr ((pySplitSemi paths).map JVal.str))]
     ++ (if 0 ≤ pos then [("pos", JVal.int pos)] else []))))))

/-- `removequeue` branch: `list(map(int, input("ids: ").strip().split(";")))`. -/
def removequeueBody : M (Option JVal) :=
  mbind (inp "ids: ") (fun idsLine =>
  ((pySplitSemi idsLine).mapM pythonInt).elim (throwHalt Halt.valueError)
    (fun ids => mpure (some (JVal.obj [("kind", JVal.str "removequeue"),
      ("ids", JVal.arr (ids.map JVal.int))]))))

/-- `play` branch. -/
def playBody : M (Option JVal) :=
  mbind (inpInt "id: ") (fun id =>
  mpure (some (JVal.obj [("kind", JVal.str "play"), ("id", JVal.int id)])))

/-- `setvol` branch. -/
def setvolBody : M (Option JVal) :=
  mbind (inpInt "volume: ") (fun volume =>
  mpure (some (JVal.obj [("kind", JVal.str "setvol"), ("volume", JVal.int volume)])))

/-- `changevol` branch. -/
def changevolBody : M (Option JVal) :=
  mbind (inpInt "delta: ") (fun delta =>
  mpure (some (JVal.obj [("kind", JVal.str "changevol"), ("delta", JVal.int delta)])))

/-- `seek` branch (prompts for `seconds`). -/
def seekBody : M (Option JVal) :=
  mbind (inpInt "seconds: ") (fun delta =>
  mpure (some (JVal.obj [("kind", JVal.str "seek"), ("seconds", JVal.int delta)])))

/-- `speed` branch. -/
def speedBody : M (Option JVal) :=
  mbind (inpInt "speed: ") (fun speed =>
  mpure (some (JVal.obj [("kind", JVal.str "speed"), ("speed", JVal.int speed)])))

/-- Shared body of the `disable` / `enable` branches. -/
def deviceBody (kind : String) : M (Option JVal) :=
  mbind (inp "device: ") (fun device =>
  mpure (some (JVal.obj [("kind", JVal.str kind), ("device", JVal.str device)])))

/-- `fromfile` branch. -/
def fromfileBody : M (Option JVal) :=
  mbind (inp "path: ") (fun path =>
  mpure (some (JVal.obj [("kind", JVal.str "fromfile"), ("path", JVal.str path)])))

/-- `save` branch. -/
def saveBody : M (Option JVal) :=
  mbind (inp "path: ") (fun path =>
  mpure (some (JVal.obj [("kind", JVal.str "save"), ("path", JVal.str path)])))

/-- `listsongs` branch. -/
def listsongsBody : M (Option JVal) :=
  mbind (inp "playlist: ") (fun playlist =>
  mpure (some (JVal.obj [("kind", JVal.str "listsongs"), ("playlist", JVal.str playlist)])))

/-- `removeplaylist` branch. -/
def removeplaylistBody : M (Option JVal) :=
  mbind (inp "playlist: ") (fun playlist =>
  mbind (inpInt "pos: ") (fun pos =>
  mpure (some (JVal.obj [("kind", JVal.str "removeplaylist"),
    ("playlist", JVal.str playlist), ("pos", JVal.int pos)]))))

/-- `load` branch: `"range"` is added only when both ends are `>= 0`,
`"pos"` only when `pos >= 0`. -/
def loadBody : M (Option JVal) :=
  mbind (inp "playlist: ") (fun playlist =>
  mbind (inpInt "range_l: ") (fun range_l =>
  mbind (inpInt "range_r: ") (fun range_r =>
  mbind (inpInt "pos: ") (fun pos =>
  mpure (some (JVal.obj
    ([("kind", JVal.str "load"), ("playlist", JVal.str playlist)]
     ++ (if 0 ≤ range_l ∧ 0 ≤ range_r then
          [("range", JVal.arr [JVal.int range_l, JVal.int range_r])] else [])
     ++ (if 0 ≤ pos then [("pos", JVal.int pos)] else []))))))))

/-- `addplaylist` branch. -/
def addplaylistBody : M (Option JVal) :=
  mbind (inp "playlist: ") (fun playlist =>
  mbind (inp "song: ") (fun song =>
  mpure (some (JVal.obj [("kind", JVal.str "addplaylist"),
    ("playlist", JVal.str playlist), ("song", JVal.str song)]))))

/-- The sixteen field-less commands of the final recognized branch. -/
def simpleKinds : List String :=
  ["previous", "next", "pause", "resume", "stop", "toggle", "gapless", "clear",
   "random", "sequential", "single", "playlists", "queue", "state", "update", "devices"]

/-- Body of a field-less command. -/
def simpleBody (kind : String) : M (Option JVal) :=
  mpure (some (JVal.obj [("kind", JVal.str kind)]))

/-- The `elif` chain on the stripped command name: `some` request on a
recognized command, `none` on the final `else` branch (which prints
`invalid request` and continues). -/
def parseCmd (kind : String) : M (Option JVal) :=
  if kind = "ls" then lsBody
  else if kind = "metadata" then metadataBody
  else if kind = "select" then selectBody
  else if kind = "unique" then uniqueBody
  else if kind = "addqueue" then addqueueBody
  else if kind = "removequeue" then removequeueBody
  else if kind = "play" then playBody
  else if kind = "setvol" then setvolBody
  else if kind = "changevol" then changevolBody
  else if kind = "seek" then seekBody
  else if kind = "speed" then speedBody
  else if kind = "disable" ∨ kind = "enable" then deviceBody kind
  else if kind = "fromfile" then fromfileBody
  else if kind = "save" then saveBody
  else if kind = "listsongs" then listsongsBody
  else if kind = "removeplaylist" then removeplaylistBody
  else if kind = "load" then loadBody
  else if kind = "addplaylist" then addplaylistBody
  else if kind ∈ simpleKinds then simpleBody kind
  else mpure none

/-- All command names with a branch in the `elif` chain. -/
def recognizedKind (kind : String) : Bool :=
  kind == "ls" || kind == "metadata" || kind == "select" || kind == "unique" ||
  kind == "addqueue" || kind == "removequeue" || kind == "play" ||
  kind == "setvol" || kind == "changevol" || kind == "seek" || kind == "speed" ||
  kind == "disable" || kind == "enable" || kind == "fromfile" || kind == "save" ||
  kind == "listsongs" || kind == "removeplaylist" || kind == "load" ||
  kind == "addplaylist" || decide (kind ∈ simpleKinds)

/-! ### Event-trace model of the socket loop

A run of the client is a list of observable events.  The server-to-client
stream is a total `Nat → Nat` (byte value at each stream offset) and the
eager `recv` model applies: `s.recv(k)` returns exactly the `k` requested
bytes.  `Event.close` is in the vocabulary although the client never calls
`s.close()`, so that its absence is a statement about the code rather than
about the model. -/

/-- Observable actions of the client. -/
inductive Event : Type
  | connect
  | close
  | recv (req : Nat) (bytes : List Nat)
  | send (bytes : List Nat)
  | prompt (p : String) (line : String)
  | printInvalid
  | printResponse (raw : List Nat)
deriving Repr, DecidableEq

/-- Bytes `[pos, pos + k)` of the stream. -/
def bytesAt (st : Nat → Nat) (pos k : Nat) : List Nat :=
  (List.range k).map (fun i => st (pos + i))

/-- Events of the response-body loop (lines 143-145) under the eager `recv`
model: no call at all when the expected length is zero (the `while` guard
fails immediately), otherwise a single `recv` returning the whole body. -/
def bodyRecvEvents (st : Nat → Nat) (pos expected : Nat) : List Event :=
  if expected = 0 then [] else [Event.recv expected (bytesAt st pos expected)]

/-- Prompt log as trace events. -/
def promptEvents (evs : List (String × String)) : List Event :=
  evs.map (fun pe => Event.prompt pe.1 pe.2)

/-- Socket events of one request/response exchange (lines 138-146): two
`sendall` calls framing the message, the 4-byte prefix `recv`, the body
loop, and the `print(json.loads(response))` — which is reached only when
the body is valid JSON. -/
def exchangeEvents (st : Nat → Nat) (pos : Nat) (mb : List Nat) : List Event :=
  [Event.send (toBytesBE4 mb.length), Event.send mb,
   Event.recv 4 (bytesAt st pos 4)]
    ++ bodyRecvEvents st (pos + 4) (fromBytesBE (bytesAt st pos 4))
    ++ (if jsonValid (bytesAt st (pos + 4) (fromBytesBE (bytesAt st pos 4))) then
          [Event.printResponse (bytesAt st (pos + 4) (fromBytesBE (bytesAt st pos 4)))]
        else [])

/-- Result of one loop iteration: its events, the remaining console lines,
the new stream position, and whether the program died (uncaught exception). -/
structure IterOut : Type where
  events : List Event
  rest : List String
  pos : Nat
  halted : Bool
deriving Repr, DecidableEq

/-- One iteration of the `while True` loop, given the raw line entered at
the `kind: ` prompt and the remaining console lines. -/
def iterStep (st : Nat → Nat) (pos : Nat) (kindRaw : String) (lines : List String) :
    IterOut :=
  match parseCmd (pyStrip kindRaw) lines with
  | .error (_, evs) =>
      ⟨Event.prompt "kind: " kindRaw :: promptEvents evs, lines, pos, true⟩
  | .ok (none, rest, evs) =>
      ⟨Event.prompt "kind: " kindRaw :: promptEvents evs ++ [Event.printInvalid],
       rest, pos, false⟩
  | .ok (some j, rest, evs) =>
      let elen := fromBytesBE (bytesAt st pos 4)
      ⟨Event.prompt "kind: " kindRaw
         :: promptEvents evs ++ exchangeEvents st pos (utf8Encode (dumps j)),
       rest, pos + 4 + elen,
       !jsonValid (bytesAt st (pos + 4) elen)⟩

/-- The `while True` loop.  Fuel is structural bookkeeping only: every
iteration consumes at least the `kind` line, so starting the loop with the
number of console lines as fuel never cuts a run short; the run ends when
the console is exhausted (the next `input` would block) or the program
halted. -/
def runAux (st : Nat → Nat) : Nat → List String → Nat → List Event
  | 0, _, _ => []
  | _ + 1, [], _ => []
  | fuel + 1, kindRaw :: rest, pos =>
    let r := iterStep st pos kindRaw rest
    if r.halted then r.events else r.events ++ runAux st fuel r.rest r.pos

/-- A whole client run (lines 7-146): connect, read and print the
length-prefixed greeting, then the loop.  A greeting that `json.loads`
rejects kills the client before the loop. -/
def clientRun (st : Nat → Nat) (inputs : List String) : List Event :=
  let pfx := bytesAt st 0 4
  let glen := fromBytesBE pfx
  let g := bytesAt st 4 glen
  Event.connect :: Event.recv 4 pfx :: Event.recv glen g ::
    (if jsonValid g then
      Event.printResponse g :: runAux st inputs.length inputs (4 + glen)
     else [])

/-- Bytes of a send event. -/
def evSend : Event → Option (List Nat)
  | Event.send b => some b
  | _ => none

/-- All bytes the client writes to the socket during a trace, in order. -/
def sentStream (l : List Event) : List Nat := (l.filterMap evSend).flatten

/-- Is this a send event? -/
def Event.isSend : Event → Bool
  | Event.send _ => true
  | _ => false

/-- Is this a recv event? -/
def Event.isRecv : Event → Bool
  | Event.recv _ _ => true
  | _ => false

/-- Is this a prompt event? -/
def Event.isPrompt : Event → Bool
  | Event.prompt _ _ => true
  | _ => false

/-- Is this the connect event? -/
def Event.isConnect : Event → Bool
  | Event.connect => true
  | _ => false

/-- Is this the close event? -/
def Event.isClose : Event → Bool
  | Event.close => true
  | _ => false

/-- Scans a trace: `true` iff no `recv` occurs before the first `send`
(equivalently, every `recv` is preceded by some `send`). -/
def recvsAfterSend : List Event → Bool
  | [] => true
  | Event.recv _ _ :: _ => false
  | Event.send _ :: _ => true
  | _ :: es => recvsAfterSend es

/-- The all-zero server stream, used for concrete witnesses. -/
def zeroStream : Nat → Nat := fun _ => 0

/-- A server stream given by an explicit byte list (zero afterwards). -/
def listStream (l : List Nat) : Nat → Nat := fun n => l.getD n 0

/-! ### Byte-level model of the response-body read loop (lines 142-146)

```
expected_len = int.from_bytes(s.recv(4), "big")
response = bytearray()
while len(response) < expected_len:
    response.extend(s.recv(expected_len))
```

Here `recv` is modelled honestly: a TCP `recv(k)` may return any nonempty
chunk of at most `k` bytes.  `avail` is the byte stream the server sends,
and `sched` caps the chunk returned by each successive `recv` call; `none`
models the loop never finishing (a `recv` finds no data — with a closed
peer CPython returns `b""` forever and the loop spins).  Note the loop asks
for `expected` bytes each time, not for the remainder. -/

def readBody (expected : Nat) : List Nat → List Nat → List Nat → Option (List Nat × List Nat)
  | acc, avail, [] => if expected ≤ acc.length then some (acc, avail) else none
  | acc, avail, c :: sc =>
    if expected ≤ acc.length then some (acc, avail)
    else if (avail.take (min expected c)).isEmpty then none
    else readBody expected (acc ++ avail.take (min expected c))
           (avail.drop (avail.take (min expected c)).length) sc

/-! ## Proof toolkit -/

/-- Running a bind. -/
theorem mbind_run {α β : Type} (x : M α) (f : α → M β) (l : List String) :
    mbind x f l =
      match x l with
      | .error e => .error e
      | .ok (a, l2, evs) =>
        match f a l2 with
        | .error (h2, evs2) => .error (h2, evs ++ evs2)
        | .ok (b, l3, evs2) => .ok (b, l3, evs ++ evs2) := rfl

/-- Running `inp` on an exhausted console. -/
theorem inp_nil (p : String) : inp p [] = .error (Halt.eof, []) := rfl

/-- Running `inp` on a console line. -/
theorem inp_cons (p l : String) (ls : List String) :
    inp p (l :: ls) = .ok (pyStrip l, ls, [(p, l)]) := rfl

/-- Running `mpure`. -/
theorem mpure_run {α : Type} (a : α) (l : List String) : mpure a l = .ok (a, l, []) := rfl

/-- Running `throwHalt`. -/
theorem throwHalt_run {α : Type} (h : Halt) (l : List String) :
    (throwHalt h : M α) l = .error (h, []) := rfl

/-- Running `inpInt` on an exhausted console. -/
theorem inpInt_nil (p : String) : inpInt p [] = .error (Halt.eof, []) := rfl

/-- Running `inpInt` on a console line: the result depends on `int()`. -/
theorem inpInt_cons (p l : String) (ls : List String) :
    inpInt p (l :: ls) =
      match pythonInt (pyStrip l) with
      | some n => .ok (n, ls, [(p, l)])
      | none => .error (Halt.valueError, [(p, l)]) := by
  cases hp : pythonInt (pyStrip l) <;>
    simp [inpInt, mbind, inp, hp, Option.elim, throwHalt, mpure]

/-- Decoding the 4-byte big-endian prefix recovers the length it framed. -/
theorem fromBytesBE_toBytesBE4 (n : Nat) (h : n < 2 ^ 32) :
    fromBytesBE (toBytesBE4 n) = n := by
  simp only [toBytesBE4, fromBytesBE, List.foldl]
  omega

/-- `sentStream` distributes over concatenation. -/
theorem sentStream_append (a b : List Event) :
    sentStream (a ++ b) = sentStream a ++ sentStream b := by
  simp [sentStream, List.filterMap_append]

/-- A non-send head contributes nothing to the sent bytes. -/
theorem sentStream_cons_none (e : Event) (l : List Event) (he : evSend e = none) :
    sentStream (e :: l) = sentStream l := by
  simp [sentStream, List.filterMap_cons, he]

/-- Prompts send nothing. -/
theorem sentStream_promptEvents (evs : List (String × String)) :
    sentStream (promptEvents evs) = [] := by
  induction evs with
  | nil => rfl
  | cons e es ih =>
      simp [promptEvents, sentStream, List.filterMap_cons, evSend]

/-- The body-read loop sends nothing. -/
theorem sentStream_bodyRecvEvents (st : Nat → Nat) (pos expected : Nat) :
    sentStream (bodyRecvEvents st pos expected) = [] := by
  unfold bodyRecvEvents
  split <;> simp [sentStream, evSend]

/-- One exchange writes exactly the frame: length prefix, then the payload. -/
theorem sentStream_exchangeEvents (st : Nat → Nat) (pos : Nat) (mb : List Nat) :
    sentStream (exchangeEvents st pos mb) = toBytesBE4 mb.length ++ mb := by
  unfold exchangeEvents
  rw [sentStream_append, sentStream_append, sentStream_bodyRecvEvents]
  have h2 : sentStream
      (if jsonValid (bytesAt st (pos + 4) (fromBytesBE (bytesAt st pos 4))) then
        [Event.printResponse (bytesAt st (pos + 4) (fromBytesBE (bytesAt st pos 4)))]
       else []) = [] := by
    split <;> simp [sentStream, evSend]
  rw [h2]
  simp [sentStream, List.filterMap_cons, evSend]

/-- Unfolding one loop iteration whose reading phase raised. -/
theorem iterStep_error (st : Nat → Nat) (pos : Nat) (kindRaw : String)
    (lines : List String) (hl : Halt) (evs : List (String × String))
    (h : parseCmd (pyStrip kindRaw) lines = .error (hl, evs)) :
    iterStep st pos kindRaw lines =
      ⟨Event.prompt "kind: " kindRaw :: promptEvents evs, lines, pos, true⟩ := by
  unfold iterStep
  rw [h]

/-- Unfolding one loop iteration on an unrecognized command. -/
theorem iterStep_none (st : Nat → Nat) (pos : Nat) (kindRaw : String)
    (lines rest : List String) (evs : List (String × String))
    (h : parseCmd (pyStrip kindRaw) lines = .ok (none, rest, evs)) :
    iterStep st pos kindRaw lines =
      ⟨Event.prompt "kind: " kindRaw :: promptEvents evs ++ [Event.printInvalid],
       rest, pos, false⟩ := by
  unfold iterStep
  rw [h]

/-- Unfolding one loop iteration that sends a request. -/
theorem iterStep_some (st : Nat → Nat) (pos : Nat) (kindRaw : String)
    (lines rest : List String) (j : JVal) (evs : List (String × String))
    (h : parseCmd (pyStrip kindRaw) lines = .ok (some j, rest, evs)) :
    iterStep st pos kindRaw lines =
      ⟨Event.prompt "kind: " kindRaw
         :: promptEvents evs ++ exchangeEvents st pos (utf8Encode (dumps j)),
       rest, pos + 4 + fromBytesBE (bytesAt st pos 4),
       !jsonValid (bytesAt st (pos + 4) (fromBytesBE (bytesAt st pos 4)))⟩ := by
  unfold iterStep
  rw [h]

/-- An unrecognized command name takes the final `else` branch, consuming
and emitting nothing. -/
theorem parseCmd_unrecognized {k : String} (h : recognizedKind k = false)
    (lines : List String) : parseCmd k lines = .ok (none, lines, []) := by
  have hne : ∀ s : String, recognizedKind s = true → k ≠ s := by
    intro s hs e
    rw [← e, h] at hs
    exact Bool.false_ne_true hs
  have hmem : ¬(k ∈ simpleKinds) := by
    intro hm
    have ht : recognizedKind k = true := by
      simp [recognizedKind, decide_eq_true hm]
    rw [h] at ht
    exact Bool.false_ne_true ht
  unfold parseCmd
  rw [if_neg (hne "ls" (by decide)), if_neg (hne "metadata" (by decide)),
    if_neg (hne "select" (by decide)), if_neg (hne "unique" (by decide)),
    if_neg (hne "addqueue" (by decide)), if_neg (hne "removequeue" (by decide)),
    if_neg (hne "play" (by decide)), if_neg (hne "setvol" (by decide)),
    if_neg (hne "changevol" (by decide)), if_neg (hne "seek" (by decide)),
    if_neg (hne "speed" (by decide)),
    if_neg (not_or.mpr ⟨hne "disable" (by decide), hne "enable" (by decide)⟩),
    if_neg (hne "fromfile" (by decide)), if_neg (hne "save" (by decide)),
    if_neg (hne "listsongs" (by decide)), if_neg (hne "removeplaylist" (by decide)),
    if_neg (hne "load" (by decide)), if_neg (hne "addplaylist" (by decide)),
    if_neg hmem]
  rfl

/-! ## C2: the response-body read loop -/

/-- The loop never stops short of the announced length. -/
theorem readBody_ge (expected : Nat) :
    ∀ (sched acc avail res rem : List Nat),
      readBody expected acc avail sched = some (res, rem) → expected ≤ res.length := by
  intro sched
  induction sched with
  | nil =>
      intro acc avail res rem h
      rw [readBody] at h
      by_cases hle : expected ≤ acc.length
      · rw [if_pos hle] at h
        simp only [Option.some.injEq, Prod.mk.injEq] at h
        obtain ⟨rfl, rfl⟩ := h
        exact hle
      · rw [if_neg hle] at h
        simp at h
  | cons c sc ih =>
      intro acc avail res rem h
      rw [readBody] at h
      by_cases hle : expected ≤ acc.length
      · rw [if_pos hle] at h
        simp only [Option.some.injEq, Prod.mk.injEq] at h
        obtain ⟨rfl, rfl⟩ := h
        exact hle
      · rw [if_neg hle] at h
        by_cases hemp : (avail.take (min expected c)).isEmpty
        · rw [if_pos hemp] at h
          simp at h
        · rw [if_neg hemp] at h
          exact ih _ _ _ _ h

/-- When the stream holds exactly the announced number of body bytes, the
loop reads exactly that many. -/
theorem readBody_exact (expected : Nat) :
    ∀ (sched acc avail res rem : List Nat),
      acc.length + avail.length = expected →
      readBody expected acc avail sched = some (res, rem) → res.length = expected := by
  intro sched
  induction sched with
  | nil =>
      intro acc avail res rem hlen h
      rw [readBody] at h
      by_cases hle : expected ≤ acc.length
      · rw [if_pos hle] at h
        simp only [Option.some.injEq, Prod.mk.injEq] at h
        obtain ⟨rfl, rfl⟩ := h
        omega
      · rw [if_neg hle] at h
        simp at h
  | cons c sc ih =>
      intro acc avail res rem hlen h
      rw [readBody] at h
      by_cases hle : expected ≤ acc.length
      · rw [if_pos hle] at h
        simp only [Option.some.injEq, Prod.mk.injEq] at h
        obtain ⟨rfl, rfl⟩ := h
        omega
      · rw [if_neg hle] at h
        by_cases hemp : (avail.take (min expected c)).isEmpty
        · rw [if_pos hemp] at h
          simp at h
        · rw [if_neg hemp] at h
          refine ih _ _ _ _ ?_ h
          simp only [List.length_append, List.length_drop, List.length_take]
          omega

/-! ## Claim theorems -/

/-- C1: for every recognized command (whose field reading succeeds, so that
the iteration reaches line 138), the bytes the client writes to the socket
in that iteration are a 4-byte big-endian prefix holding the byte length of
the UTF-8 encoding of the JSON payload, followed by exactly those payload
bytes.  (`int.to_bytes(4, "big")` raises for lengths at or above `2^32`,
whence the length hypothesis.) -/
theorem c1_request_framing (st : Nat → Nat) (pos : Nat) (kindRaw : String)
    (lines rest : List String) (j : JVal) (evs : List (String × String))
    (h : parseCmd (pyStrip kindRaw) lines = .ok (some j, rest, evs))
    (hlen : (utf8Encode (dumps j)).length < 2 ^ 32) :
    sentStream (iterStep st pos kindRaw lines).events
        = toBytesBE4 (utf8Encode (dumps j)).length ++ utf8Encode (dumps j)
      ∧ fromBytesBE (toBytesBE4 (utf8Encode (dumps j)).length)
        = (utf8Encode (dumps j)).length := by
  refine ⟨?_, fromBytesBE_toBytesBE4 _ hlen⟩
  rw [iterStep_some st pos kindRaw lines rest j evs h]
  show sentStream ((Event.prompt "kind: " kindRaw :: promptEvents evs)
    ++ exchangeEvents st pos (utf8Encode (dumps j))) = _
  rw [sentStream_append, sentStream_exchangeEvents,
    sentStream_cons_none (Event.prompt "kind: " kindRaw) (promptEvents evs) rfl,
    sentStream_promptEvents]
  rfl

/-- Concrete `play` request used by witnesses. -/
def jPlay5 : JVal := JVal.obj [("kind", JVal.str "play"), ("id", JVal.int 5)]

/-- Witness for C1 at the command `play` with id `5`. -/
theorem c1_witness :
    parseCmd (pyStrip "play") ["5"] = .ok (some jPlay5, [], [("id: ", "5")])
    ∧ (utf8Encode (dumps jPlay5)).length < 2 ^ 32
    ∧ (sentStream (iterStep zeroStream 0 "play" ["5"]).events
          = toBytesBE4 (utf8Encode (dumps jPlay5)).length ++ utf8Encode (dumps jPlay5)
       ∧ fromBytesBE (toBytesBE4 (utf8Encode (dumps jPlay5)).length)
          = (utf8Encode (dumps jPlay5)).length) :=
  ⟨by rfl, by decide,
   c1_request_framing zeroStream 0 "play" ["5"] [] jPlay5 [("id: ", "5")]
     (by rfl) (by decide)⟩

/-- C2 counterexample: the claim says the client reads exactly
`expected_len` body bytes, no more.  With `expected_len = 2`, a stream
holding `[97, 98, 99, 100]` after the prefix and a first `recv` that
returns only one byte, the loop's second `recv` asks for `expected_len`
bytes again (not the remainder) and the client accumulates three bytes —
more than announced — before decoding. -/
theorem c2_counterexample :
    readBody 2 [] [97, 98, 99, 100] [1, 2] = some ([97, 98, 99], [100])
    ∧ ([97, 98, 99] : List Nat).length ≠ 2 := by
  decide

/-- C2 amended: the body loop reads at least `expected_len` bytes, never
fewer; and when the stream holds exactly `expected_len` bytes it reads
exactly that many (over-read needs both a partial `recv` and extra bytes
beyond the response). -/
theorem c2_amended (expected : Nat) (avail sched res rem : List Nat)
    (h : readBody expected [] avail sched = some (res, rem)) :
    expected ≤ res.length ∧ (avail.length = expected → res.length = expected) :=
  ⟨readBody_ge expected sched [] avail res rem h,
   fun he => readBody_exact expected sched [] avail res rem (by simpa using he) h⟩

/-- Witness for the amended C2 on a three-byte body delivered whole. -/
theorem c2_witness :
    readBody 3 [] [5, 6, 7] [5] = some ([5, 6, 7], [])
    ∧ (3 ≤ ([5, 6, 7] : List Nat).length
       ∧ (([5, 6, 7] : List Nat).length = 3 → ([5, 6, 7] : List Nat).length = 3)) :=
  ⟨by decide, c2_amended 3 [5, 6, 7] [5] [5, 6, 7] [] (by decide)⟩

/-- C3: a command name that is not one of the recognized kinds makes the
iteration print `invalid request` and `continue`: its trace holds only the
`kind` prompt and that message — no send, no recv — the console lines after
the kind line are untouched, the stream position is unchanged, and the
program does not halt. -/
theorem c3_invalid_request (st : Nat → Nat) (pos : Nat) (kindRaw : String)
    (lines : List String) (h : recognizedKind (pyStrip kindRaw) = false) :
    iterStep st pos kindRaw lines =
      ⟨[Event.prompt "kind: " kindRaw, Event.printInvalid], lines, pos, false⟩ := by
  rw [iterStep_none st pos kindRaw lines lines [] (parseCmd_unrecognized h lines)]
  rfl

/-- Witness for C3 at the unrecognized name `bogus`. -/
theorem c3_witness :
    recognizedKind (pyStrip "bogus") = false
    ∧ iterStep zeroStream 0 "bogus" ["next"] =
        ⟨[Event.prompt "kind: " "bogus", Event.printInvalid], ["next"], 0, false⟩ :=
  ⟨by decide, c3_invalid_request zeroStream 0 "bogus" ["next"] (by decide)⟩

/-- Bytes of a recv event. -/
def evRecv : Event → Option (List Nat)
  | Event.recv _ b => some b
  | _ => none

/-- Reading zero bytes of the stream. -/
theorem bytesAt_zero (st : Nat → Nat) (pos : Nat) : bytesAt st pos 0 = [] := rfl

/-- C4: in a loop iteration that reaches the exchange (recognized command,
fields read without an exception), the trace is: prompts only, then the two
`sendall` calls forming exactly one framed request, then the prefix `recv`
and the body reads of exactly one framed response (and possibly its print);
no further send ever occurs in the iteration, and no read precedes the
send.  The recv events after the prefix recover exactly the announced
response body. -/
theorem c4_lockstep (st : Nat → Nat) (pos : Nat) (kindRaw : String)
    (lines rest : List String) (j : JVal) (evs : List (String × String))
    (h : parseCmd (pyStrip kindRaw) lines = .ok (some j, rest, evs)) :
    (iterStep st pos kindRaw lines).events
        = (Event.prompt "kind: " kindRaw :: promptEvents evs)
          ++ Event.send (toBytesBE4 (utf8Encode (dumps j)).length)
          :: Event.send (utf8Encode (dumps j))
          :: Event.recv 4 (bytesAt st pos 4)
          :: (bodyRecvEvents st (pos + 4) (fromBytesBE (bytesAt st pos 4))
              ++ (if jsonValid (bytesAt st (pos + 4) (fromBytesBE (bytesAt st pos 4))) then
                    [Event.printResponse (bytesAt st (pos + 4) (fromBytesBE (bytesAt st pos 4)))]
                  else []))
    ∧ (∀ e ∈ Event.prompt "kind: " kindRaw :: promptEvents evs, e.isPrompt = true)
    ∧ (∀ e ∈ bodyRecvEvents st (pos + 4) (fromBytesBE (bytesAt st pos 4))
            ++ (if jsonValid (bytesAt st (pos + 4) (fromBytesBE (bytesAt st pos 4))) then
                  [Event.printResponse (bytesAt st (pos + 4) (fromBytesBE (bytesAt st pos 4)))]
                else []),
        e.isSend = false ∧ e.isPrompt = false)
    ∧ ((bodyRecvEvents st (pos + 4) (fromBytesBE (bytesAt st pos 4))
          ++ (if jsonValid (bytesAt st (pos + 4) (fromBytesBE (bytesAt st pos 4))) then
                [Event.printResponse (bytesAt st (pos + 4) (fromBytesBE (bytesAt st pos 4)))]
              else [])).filterMap evRecv).flatten
        = bytesAt st (pos + 4) (fromBytesBE (bytesAt st pos 4)) := by
  refine ⟨?_, ?_, ?_, ?_⟩
  · rw [iterStep_some st pos kindRaw lines rest j evs h]
    show (Event.prompt "kind: " kindRaw :: promptEvents evs)
        ++ exchangeEvents st pos (utf8Encode (dumps j)) = _
    unfold exchangeEvents
    simp
  · intro e he
    rcases List.mem_cons.mp he with rfl | hm
    · rfl
    · obtain ⟨pe, _, rfl⟩ := List.mem_map.mp hm
      rfl
  · intro e he
    rcases List.mem_append.mp he with hb | hi
    · unfold bodyRecvEvents at hb
      split at hb
      · simp at hb
      · simp at hb
        subst hb
        exact ⟨rfl, rfl⟩
    · split at hi
      · simp at hi
        subst hi
        exact ⟨rfl, rfl⟩
      · simp at hi
  · rw [List.filterMap_append]
    have h1 : (bodyRecvEvents st (pos + 4) (fromBytesBE (bytesAt st pos 4))).filterMap evRecv
        = if fromBytesBE (bytesAt st pos 4) = 0 then []
          else [bytesAt st (pos + 4) (fromBytesBE (bytesAt st pos 4))] := by
      unfold bodyRecvEvents
      split <;> simp [evRecv]
    have h2 : ((if jsonValid (bytesAt st (pos + 4) (fromBytesBE (bytesAt st pos 4))) then
          [Event.printResponse (bytesAt st (pos + 4) (fromBytesBE (bytesAt st pos 4)))]
        else []) : List Event).filterMap evRecv = [] := by
      split <;> simp [evRecv]
    rw [h1, h2]
    by_cases hz : fromBytesBE (bytesAt st pos 4) = 0
    · rw [if_pos hz, hz, bytesAt_zero]
      rfl
    · rw [if_neg hz]
      simp

/-- Witness for C4 at the command `play` with id `5`. -/
theorem c4_witness :
    parseCmd (pyStrip "play") ["5"] = .ok (some jPlay5, [], [("id: ", "5")])
    ∧ ((iterStep zeroStream 0 "play" ["5"]).events
          = (Event.prompt "kind: " "play" :: promptEvents [("id: ", "5")])
            ++ Event.send (toBytesBE4 (utf8Encode (dumps jPlay5)).length)
            :: Event.send (utf8Encode (dumps jPlay5))
            :: Event.recv 4 (bytesAt zeroStream 0 4)
            :: (bodyRecvEvents zeroStream (0 + 4) (fromBytesBE (bytesAt zeroStream 0 4))
                ++ (if jsonValid (bytesAt zeroStream (0 + 4) (fromBytesBE (bytesAt zeroStream 0 4))) then
                      [Event.printResponse (bytesAt zeroStream (0 + 4) (fromBytesBE (bytesAt zeroStream 0 4)))]
                    else []))
       ∧ (∀ e ∈ Event.prompt "kind: " "play" :: promptEvents [("id: ", "5")], e.isPrompt = true)
       ∧ (∀ e ∈ bodyRecvEvents zeroStream (0 + 4) (fromBytesBE (bytesAt zeroStream 0 4))
              ++ (if jsonValid (bytesAt zeroStream (0 + 4) (fromBytesBE (bytesAt zeroStream 0 4))) then
                    [Event.printResponse (bytesAt zeroStream (0 + 4) (fromBytesBE (bytesAt zeroStream 0 4)))]
                  else []),
          e.isSend = false ∧ e.isPrompt = false)
       ∧ ((bodyRecvEvents zeroStream (0 + 4) (fromBytesBE (bytesAt zeroStream 0 4))
            ++ (if jsonValid (bytesAt zeroStream (0 + 4) (fromBytesBE (bytesAt zeroStream 0 4))) then
                  [Event.printResponse (bytesAt zeroStream (0 + 4) (fromBytesBE (bytesAt zeroStream 0 4)))]
                else [])).filterMap evRecv).flatten
          = bytesAt zeroStream (0 + 4) (fromBytesBE (bytesAt zeroStream 0 4))) :=
  ⟨by rfl, c4_lockstep zeroStream 0 "play" ["5"] [] jPlay5 [("id: ", "5")] (by rfl)⟩

/-! ### Run-level lemmas -/

/-- One unfolding of the loop. -/
theorem runAux_cons (st : Nat → Nat) (fuel : Nat) (kindRaw : String)
    (rest : List String) (pos : Nat) :
    runAux st (fuel + 1) (kindRaw :: rest) pos
      = (if (iterStep st pos kindRaw rest).halted
         then (iterStep st pos kindRaw rest).events
         else (iterStep st pos kindRaw rest).events
           ++ runAux st fuel (iterStep st pos kindRaw rest).rest
                (iterStep st pos kindRaw rest).pos) := rfl

/-- Events that are neither sends nor recvs do not move the scan. -/
theorem recvsAfterSend_append_skip (l2 : List Event) :
    ∀ l1 : List Event, (∀ e ∈ l1, e.isSend = false ∧ e.isRecv = false) →
      recvsAfterSend (l1 ++ l2) = recvsAfterSend l2 := by
  intro l1
  induction l1 with
  | nil => intro _; rfl
  | cons e es ih =>
      intro h1
      rw [List.cons_append]
      have hes : ∀ x ∈ es, x.isSend = false ∧ x.isRecv = false :=
        fun x hx => h1 x (List.mem_cons_of_mem e hx)
      have he := h1 e (List.mem_cons_self e es)
      cases e with
      | recv a b => exact absurd he.2 (by simp [Event.isRecv])
      | send b => exact absurd he.1 (by simp [Event.isSend])
      | connect => exact ih hes
      | close => exact ih hes
      | prompt a b => exact ih hes
      | printInvalid => exact ih hes
      | printResponse b => exact ih hes

/-- A list of skip events scans to `true`. -/
theorem recvsAfterSend_skipAll (l : List Event)
    (h : ∀ e ∈ l, e.isSend = false ∧ e.isRecv = false) :
    recvsAfterSend l = true := by
  have := recvsAfterSend_append_skip [] l h
  simpa using this

/-- Prompt events are skip events. -/
theorem promptEvents_skip (evs : List (String × String)) :
    ∀ e ∈ promptEvents evs, e.isSend = false ∧ e.isRecv = false := by
  intro e he
  obtain ⟨pe, _, rfl⟩ := List.mem_map.mp he
  exact ⟨rfl, rfl⟩

/-- The kind prompt plus field prompts are skip events. -/
theorem kindPrompts_skip (kindRaw : String) (evs : List (String × String)) :
    ∀ e ∈ Event.prompt "kind: " kindRaw :: promptEvents evs,
      e.isSend = false ∧ e.isRecv = false := by
  intro e he
  rcases List.mem_cons.mp he with rfl | hm
  · exact ⟨rfl, rfl⟩
  · exact promptEvents_skip evs e hm

/-- In the whole loop trace, no recv ever occurs before a send: every read
is the response to a request already written. -/
theorem runAux_recvsAfterSend (st : Nat → Nat) :
    ∀ (fuel : Nat) (lines : List String) (pos : Nat),
      recvsAfterSend (runAux st fuel lines pos) = true := by
  intro fuel
  induction fuel with
  | zero => intro lines pos; rfl
  | succ n ih =>
      intro lines pos
      cases lines with
      | nil => rfl
      | cons kindRaw rest =>
          rw [runAux_cons]
          cases hp : parseCmd (pyStrip kindRaw) rest with
          | error e =>
              obtain ⟨hl, evs⟩ := e
              rw [iterStep_error st pos kindRaw rest hl evs hp]
              show recvsAfterSend (Event.prompt "kind: " kindRaw :: promptEvents evs) = true
              exact recvsAfterSend_skipAll _ (kindPrompts_skip kindRaw evs)
          | ok v =>
              obtain ⟨res, rest2, evs⟩ := v
              cases res with
              | none =>
                  rw [iterStep_none st pos kindRaw rest rest2 evs hp]
                  show recvsAfterSend
                    (((Event.prompt "kind: " kindRaw :: promptEvents evs)
                        ++ [Event.printInvalid]) ++ runAux st n rest2 pos) = true
                  rw [List.append_assoc,
                    recvsAfterSend_append_skip _ _ (kindPrompts_skip kindRaw evs),
                    recvsAfterSend_append_skip _ [Event.printInvalid]
                      (by intro e he; simp at he; subst he; exact ⟨rfl, rfl⟩)]
                  exact ih rest2 pos
              | some j =>
                  rw [iterStep_some st pos kindRaw rest rest2 j evs hp]
                  by_cases hv : jsonValid
                      (bytesAt st (pos + 4) (fromBytesBE (bytesAt st pos 4))) = true
                  · show recvsAfterSend (if ((!jsonValid (bytesAt st (pos + 4)
                        (fromBytesBE (bytesAt st pos 4)))) = true) then _ else _) = true
                    rw [hv]
                    show recvsAfterSend
                      ((Event.prompt "kind: " kindRaw :: promptEvents evs)
                        ++ exchangeEvents st pos (utf8Encode (dumps j))
                        ++ runAux st n rest2 (pos + 4 + fromBytesBE (bytesAt st pos 4))) = true
                    rw [List.append_assoc,
                      recvsAfterSend_append_skip _ _ (kindPrompts_skip kindRaw evs)]
                    rfl
                  · rw [Bool.not_eq_true] at hv
                    show recvsAfterSend (if ((!jsonValid (bytesAt st (pos + 4)
                        (fromBytesBE (bytesAt st pos 4)))) = true) then _ else _) = true
                    rw [hv]
                    show recvsAfterSend
                      ((Event.prompt "kind: " kindRaw :: promptEvents evs)
                        ++ exchangeEvents st pos (utf8Encode (dumps j))) = true
                    rw [recvsAfterSend_append_skip _ _ (kindPrompts_skip kindRaw evs)]
                    rfl

/-- C5: the first four events of every run are: connect, the 4-byte prefix
recv, the single greeting-body recv, and the greeting print — so the
greeting is read and printed before any prompt, send, or further read (it
is assumed to be well-formed JSON, else `json.loads` kills the client here)
— and in the whole remainder of the run no recv happens before a send, so
the greeting read never repeats. -/
theorem c5_greeting (st : Nat → Nat) (inputs : List String)
    (h : jsonValid (bytesAt st 4 (fromBytesBE (bytesAt st 0 4))) = true) :
    clientRun st inputs
      = Event.connect :: Event.recv 4 (bytesAt st 0 4)
          :: Event.recv (fromBytesBE (bytesAt st 0 4))
               (bytesAt st 4 (fromBytesBE (bytesAt st 0 4)))
          :: Event.printResponse (bytesAt st 4 (fromBytesBE (bytesAt st 0 4)))
          :: runAux st inputs.length inputs (4 + fromBytesBE (bytesAt st 0 4))
    ∧ recvsAfterSend
        (runAux st inputs.length inputs (4 + fromBytesBE (bytesAt st 0 4))) = true := by
  constructor
  · simp only [clientRun]
    rw [if_pos h]
  · exact runAux_recvsAfterSend st inputs.length inputs _

/-- A server stream whose greeting and every response is `{}`. -/
def stGood : Nat → Nat :=
  listStream [0, 0, 0, 2, 123, 125, 0, 0, 0, 2, 123, 125, 0, 0, 0, 2, 123, 125]

/-- A server stream whose first response `xx` is not JSON. -/
def stBad : Nat → Nat :=
  listStream [0, 0, 0, 2, 123, 125, 0, 0, 0, 2, 120, 120, 0, 0, 0, 2, 123, 125]

/-- Witness for C5 on a run with greeting `{}` and one `state` command. -/
theorem c5_witness :
    jsonValid (bytesAt stGood 4 (fromBytesBE (bytesAt stGood 0 4))) = true
    ∧ (clientRun stGood ["state"]
        = Event.connect :: Event.recv 4 (bytesAt stGood 0 4)
            :: Event.recv (fromBytesBE (bytesAt stGood 0 4))
                 (bytesAt stGood 4 (fromBytesBE (bytesAt stGood 0 4)))
            :: Event.printResponse (bytesAt stGood 4 (fromBytesBE (bytesAt stGood 0 4)))
            :: runAux stGood (["state"] : List String).length ["state"]
                 (4 + fromBytesBE (bytesAt stGood 0 4))
       ∧ recvsAfterSend
           (runAux stGood (["state"] : List String).length ["state"]
             (4 + fromBytesBE (bytesAt stGood 0 4))) = true) :=
  ⟨by decide, c5_greeting stGood ["state"] (by decide)⟩

/-! ### Counting-based lemmas for C7 -/

/-- Prompts never satisfy a predicate that is false on prompts. -/
theorem countP_promptEvents (p : Event → Bool)
    (hpr : ∀ a b, p (Event.prompt a b) = false) (evs : List (String × String)) :
    (promptEvents evs).countP p = 0 := by
  induction evs with
  | nil => rfl
  | cons e es ih => simp [promptEvents, List.countP_cons, hpr, ih]

/-- The exchange contains only sends, recvs and response prints. -/
theorem countP_exchange (p : Event → Bool)
    (hs : ∀ b, p (Event.send b) = false)
    (hr : ∀ a b, p (Event.recv a b) = false)
    (hpp : ∀ b, p (Event.printResponse b) = false)
    (st : Nat → Nat) (pos : Nat) (mb : List Nat) :
    (exchangeEvents st pos mb).countP p = 0 := by
  unfold exchangeEvents bodyRecvEvents
  split <;> split <;> simp [List.countP_append, List.countP_cons, hs, hr, hpp]

/-- No iteration event satisfies a predicate false on every constructor the
loop can emit. -/
theorem countP_iterStep (p : Event → Bool)
    (hpr : ∀ a b, p (Event.prompt a b) = false)
    (hs : ∀ b, p (Event.send b) = false)
    (hr : ∀ a b, p (Event.recv a b) = false)
    (hpi : p Event.printInvalid = false)
    (hpp : ∀ b, p (Event.printResponse b) = false)
    (st : Nat → Nat) (pos : Nat) (kindRaw : String) (lines : List String) :
    (iterStep st pos kindRaw lines).events.countP p = 0 := by
  cases hp : parseCmd (pyStrip kindRaw) lines with
  | error e =>
      obtain ⟨hl, evs⟩ := e
      rw [iterStep_error st pos kindRaw lines hl evs hp]
      simp [List.countP_cons, hpr, countP_promptEvents p hpr evs]
  | ok v =>
      obtain ⟨res, rest, evs⟩ := v
      cases res with
      | none =>
          rw [iterStep_none st pos kindRaw lines rest evs hp]
          show ((Event.prompt "kind: " kindRaw :: promptEvents evs)
              ++ [Event.printInvalid]).countP p = 0
          simp [List.countP_append, List.countP_cons, hpr, hpi,
            countP_promptEvents p hpr evs]
      | some j =>
          rw [iterStep_some st pos kindRaw lines rest j evs hp]
          show ((Event.prompt "kind: " kindRaw :: promptEvents evs)
              ++ exchangeEvents st pos (utf8Encode (dumps j))).countP p = 0
          simp [List.countP_append, List.countP_cons, hpr,
            countP_promptEvents p hpr evs, countP_exchange p hs hr hpp]

/-- No loop event satisfies such a predicate. -/
theorem countP_runAux (p : Event → Bool)
    (hpr : ∀ a b, p (Event.prompt a b) = false)
    (hs : ∀ b, p (Event.send b) = false)
    (hr : ∀ a b, p (Event.recv a b) = false)
    (hpi : p Event.printInvalid = false)
    (hpp : ∀ b, p (Event.printResponse b) = false)
    (st : Nat → Nat) :
    ∀ (fuel : Nat) (lines : List String) (pos : Nat),
      (runAux st fuel lines pos).countP p = 0 := by
  intro fuel
  induction fuel with
  | zero => intro lines pos; rfl
  | succ n ih =>
      intro lines pos
      cases lines with
      | nil => rfl
      | cons kindRaw rest =>
          rw [runAux_cons]
          by_cases hb : (iterStep st pos kindRaw rest).halted
          · rw [if_pos hb]
            exact countP_iterStep p hpr hs hr hpi hpp st pos kindRaw rest
          · rw [if_neg hb]
            rw [List.countP_append,
              countP_iterStep p hpr hs hr hpi hpp st pos kindRaw rest, ih]

/-- C7: every run has exactly one `connect` event, it is the very first
event of the run, and there is never a `close` event: all traffic flows
over the single socket opened before the greeting. -/
theorem c7_single_socket (st : Nat → Nat) (inputs : List String) :
    (clientRun st inputs).countP Event.isConnect = 1
    ∧ (clientRun st inputs).countP Event.isClose = 0
    ∧ (clientRun st inputs).head? = some Event.connect := by
  have hconn := countP_runAux Event.isConnect (fun _ _ => rfl) (fun _ => rfl)
    (fun _ _ => rfl) rfl (fun _ => rfl) st
  have hclose := countP_runAux Event.isClose (fun _ _ => rfl) (fun _ => rfl)
    (fun _ _ => rfl) rfl (fun _ => rfl) st
  refine ⟨?_, ?_, by simp [clientRun]⟩
  · simp only [clientRun]
    by_cases hv : jsonValid (bytesAt st 4 (fromBytesBE (bytesAt st 0 4))) = true
    · rw [if_pos hv]
      simp [List.countP_cons, Event.isConnect, hconn]
    · rw [if_neg hv]
      simp [List.countP_cons, Event.isConnect]
  · simp only [clientRun]
    by_cases hv : jsonValid (bytesAt st 4 (fromBytesBE (bytesAt st 0 4))) = true
    · rw [if_pos hv]
      simp [List.countP_cons, Event.isClose, hclose]
    · rw [if_neg hv]
      simp [List.countP_cons, Event.isClose]

/-! ### Sends as a function of the console for C10 -/

/-- The bytes one iteration sends, computed from the console lines alone. -/
def iterSends (kindRaw : String) (lines : List String) : List Nat :=
  match parseCmd (pyStrip kindRaw) lines with
  | .ok (some j, _, _) =>
      toBytesBE4 (utf8Encode (dumps j)).length ++ utf8Encode (dumps j)
  | _ => []

/-- The kind prompt and the field prompts send nothing. -/
theorem sentStream_kindPrompts (kindRaw : String) (evs : List (String × String)) :
    sentStream (Event.prompt "kind: " kindRaw :: promptEvents evs) = [] := by
  rw [sentStream_cons_none (Event.prompt "kind: " kindRaw) (promptEvents evs) rfl,
    sentStream_promptEvents]

/-- The sends of an iteration do not depend on the server stream. -/
theorem sentStream_iterStep (st : Nat → Nat) (pos : Nat) (kindRaw : String)
    (lines : List String) :
    sentStream (iterStep st pos kindRaw lines).events = iterSends kindRaw lines := by
  unfold iterSends
  cases hp : parseCmd (pyStrip kindRaw) lines with
  | error e =>
      obtain ⟨hl, evs⟩ := e
      rw [iterStep_error st pos kindRaw lines hl evs hp]
      exact sentStream_kindPrompts kindRaw evs
  | ok v =>
      obtain ⟨res, rest, evs⟩ := v
      cases res with
      | none =>
          rw [iterStep_none st pos kindRaw lines rest evs hp]
          show sentStream ((Event.prompt "kind: " kindRaw :: promptEvents evs)
            ++ [Event.printInvalid]) = _
          rw [sentStream_append, sentStream_kindPrompts]
          rfl
      | some j =>
          rw [iterStep_some st pos kindRaw lines rest j evs hp]
          show sentStream ((Event.prompt "kind: " kindRaw :: promptEvents evs)
            ++ exchangeEvents st pos (utf8Encode (dumps j))) = _
          rw [sentStream_append, sentStream_kindPrompts, sentStream_exchangeEvents]
          rfl

/-- The consumed console lines do not depend on the server stream. -/
theorem iterStep_rest_indep (st1 st2 : Nat → Nat) (pos1 pos2 : Nat)
    (kindRaw : String) (lines : List String) :
    (iterStep st1 pos1 kindRaw lines).rest = (iterStep st2 pos2 kindRaw lines).rest := by
  cases hp : parseCmd (pyStrip kindRaw) lines with
  | error e =>
      obtain ⟨hl, evs⟩ := e
      rw [iterStep_error st1 pos1 kindRaw lines hl evs hp,
        iterStep_error st2 pos2 kindRaw lines hl evs hp]
  | ok v =>
      obtain ⟨res, rest, evs⟩ := v
      cases res with
      | none =>
          rw [iterStep_none st1 pos1 kindRaw lines rest evs hp,
            iterStep_none st2 pos2 kindRaw lines rest evs hp]
      | some j =>
          rw [iterStep_some st1 pos1 kindRaw lines rest j evs hp,
            iterStep_some st2 pos2 kindRaw lines rest j evs hp]

/-- One unfolding of the loop's sent bytes. -/
theorem runAux_succ_sends (st : Nat → Nat) (n : Nat) (kindRaw : String)
    (rest : List String) (pos : Nat) :
    sentStream (runAux st (n + 1) (kindRaw :: rest) pos)
      = iterSends kindRaw rest
        ++ (if (iterStep st pos kindRaw rest).halted then []
            else sentStream (runAux st n (iterStep st pos kindRaw rest).rest
                   (iterStep st pos kindRaw rest).pos)) := by
  rw [runAux_cons]
  by_cases hb : (iterStep st pos kindRaw rest).halted
  · rw [if_pos hb, if_pos hb, sentStream_iterStep, List.append_nil]
  · rw [if_neg hb, if_neg hb, sentStream_append, sentStream_iterStep]

/-- Prefix order is preserved by prepending a common block. -/
theorem prefix_or_append (x a b : List Nat) (h : a <+: b ∨ b <+: a) :
    x ++ a <+: x ++ b ∨ x ++ b <+: x ++ a := by
  rcases h with ⟨t, ht⟩ | ⟨t, ht⟩
  · exact Or.inl ⟨t, by rw [List.append_assoc, ht]⟩
  · exact Or.inr ⟨t, by rw [List.append_assoc, ht]⟩

/-- Against any two server streams, one run's sent bytes are a prefix of
the other's: a response can cut a run short (by not being JSON), but can
never alter a byte of what is sent. -/
theorem runAux_sends_prefix (st1 st2 : Nat → Nat) :
    ∀ (fuel : Nat) (lines : List String) (pos1 pos2 : Nat),
      sentStream (runAux st1 fuel lines pos1) <+: sentStream (runAux st2 fuel lines pos2)
      ∨ sentStream (runAux st2 fuel lines pos2) <+: sentStream (runAux st1 fuel lines pos1) := by
  intro fuel
  induction fuel with
  | zero => intro lines pos1 pos2; left; exact List.prefix_refl _
  | succ n ih =>
      intro lines pos1 pos2
      cases lines with
      | nil => left; exact List.prefix_refl _
      | cons kindRaw rest =>
          rw [runAux_succ_sends st1 n kindRaw rest pos1,
            runAux_succ_sends st2 n kindRaw rest pos2]
          refine prefix_or_append _ _ _ ?_
          by_cases h1 : (iterStep st1 pos1 kindRaw rest).halted
          · rw [if_pos h1]
            left
            exact List.nil_prefix
          · rw [if_neg h1]
            by_cases h2 : (iterStep st2 pos2 kindRaw rest).halted
            · rw [if_pos h2]
              right
              exact List.nil_prefix
            · rw [if_neg h2, iterStep_rest_indep st2 st1 pos2 pos1 kindRaw rest]
              exact ih _ _ _

/-- Helper events-to-sends lemmas for the run head. -/
theorem sentStream_cons_connect (l : List Event) :
    sentStream (Event.connect :: l) = sentStream l := by
  simp [sentStream, List.filterMap_cons, evSend]

/-- Recv events send nothing. -/
theorem sentStream_cons_recv (a : Nat) (b : List Nat) (l : List Event) :
    sentStream (Event.recv a b :: l) = sentStream l := by
  simp [sentStream, List.filterMap_cons, evSend]

/-- Response prints send nothing. -/
theorem sentStream_cons_printResponse (b : List Nat) (l : List Event) :
    sentStream (Event.printResponse b :: l) = sentStream l := by
  simp [sentStream, List.filterMap_cons, evSend]

/-- The run's sent bytes are the loop's sent bytes (or nothing when the
greeting already kills the client). -/
theorem sentStream_clientRun (st : Nat → Nat) (inputs : List String) :
    sentStream (clientRun st inputs)
      = if jsonValid (bytesAt st 4 (fromBytesBE (bytesAt st 0 4))) then
          sentStream (runAux st inputs.length inputs (4 + fromBytesBE (bytesAt st 0 4)))
        else [] := by
  simp only [clientRun]
  by_cases hv : jsonValid (bytesAt st 4 (fromBytesBE (bytesAt st 0 4))) = true
  · rw [if_pos hv, if_pos hv, sentStream_cons_connect, sentStream_cons_recv,
      sentStream_cons_recv, sentStream_cons_printResponse]
  · rw [if_neg hv, if_neg hv, sentStream_cons_connect, sentStream_cons_recv,
      sentStream_cons_recv]
    rfl

/-- C10 amended: for a fixed console input, the sent byte sequences of two
runs against different servers always agree up to truncation (one is a
prefix of the other); a response influences only whether the client
survives to send more, never the content of any sent byte. -/
theorem c10_amended (inputs : List String) (st1 st2 : Nat → Nat) :
    sentStream (clientRun st1 inputs) <+: sentStream (clientRun st2 inputs)
    ∨ sentStream (clientRun st2 inputs) <+: sentStream (clientRun st1 inputs) := by
  rw [sentStream_clientRun, sentStream_clientRun]
  by_cases h1 : jsonValid (bytesAt st1 4 (fromBytesBE (bytesAt st1 0 4))) = true
  · rw [if_pos h1]
    by_cases h2 : jsonValid (bytesAt st2 4 (fromBytesBE (bytesAt st2 0 4))) = true
    · rw [if_pos h2]
      exact runAux_sends_prefix st1 st2 inputs.length inputs _ _
    · rw [if_neg h2]
      right
      exact List.nil_prefix
  · rw [if_neg h1]
    left
    exact List.nil_prefix

/-- C10 counterexample: identical console inputs (`state`, `state`), two
servers that differ only in the first response body (`{}` versus the
non-JSON `xx`): the second run dies at `print(json.loads(response))` after
one request and sends strictly fewer bytes, so the sent byte sequence is
not a function of the console input alone. -/
theorem c10_counterexample :
    sentStream (clientRun stGood ["state", "state"])
      ≠ sentStream (clientRun stBad ["state", "state"]) := by
  decide

/-! ### Symbolic evaluation of the reading phase

Generic lemmas for the branch-body shapes that occur in the `elif` chain:
one string prompt, two string prompts, one integer prompt, string then
integer, string then three integers, and the `removequeue` map shape. -/

/-- A failed `mbind` head propagates its error. -/
theorem mbind_err {α β : Type} (x : M α) (f : α → M β) (l : List String)
    (e : Halt × List (String × String)) (hx : x l = .error e) :
    mbind x f l = .error e := by
  simp [mbind, hx]

/-- Prompt names of `inp p · pure`. -/
theorem promptsOfS1 (p : String) (mk : String → Option JVal) :
    ∀ (lines : List String) (j : Option JVal) (rest : List String)
      (evs : List (String × String)),
      (mbind (inp p) (fun a => mpure (mk a))) lines = .ok (j, rest, evs) →
      evs.map Prod.fst = [p] := by
  intro lines j rest evs h
  cases lines with
  | nil =>
      rw [show (mbind (inp p) (fun a => mpure (mk a))) ([] : List String)
        = .error (Halt.eof, []) from rfl] at h
      exact absurd h (by simp)
  | cons l ls =>
      rw [show (mbind (inp p) (fun a => mpure (mk a))) (l :: ls)
        = .ok (mk (pyStrip l), ls, [(p, l)]) from rfl] at h
      simp only [Except.ok.injEq, Prod.mk.injEq] at h
      rw [← h.2.2]
      rfl

/-- Prompt names of `inp p1, inp p2 · pure`. -/
theorem promptsOfS2 (p1 p2 : String) (mk : String → String → Option JVal) :
    ∀ (lines : List String) (j : Option JVal) (rest : List String)
      (evs : List (String × String)),
      (mbind (inp p1) (fun a => mbind (inp p2) (fun b => mpure (mk a b)))) lines
        = .ok (j, rest, evs) →
      evs.map Prod.fst = [p1, p2] := by
  intro lines j rest evs h
  cases lines with
  | nil =>
      rw [show (mbind (inp p1) (fun a => mbind (inp p2) (fun b => mpure (mk a b))))
        ([] : List String) = .error (Halt.eof, []) from rfl] at h
      exact absurd h (by simp)
  | cons l1 ls1 =>
      cases ls1 with
      | nil =>
          rw [show (mbind (inp p1) (fun a => mbind (inp p2) (fun b => mpure (mk a b))))
            [l1] = .error (Halt.eof, [(p1, l1)]) from rfl] at h
          exact absurd h (by simp)
      | cons l2 ls2 =>
          rw [show (mbind (inp p1) (fun a => mbind (inp p2) (fun b => mpure (mk a b))))
            (l1 :: l2 :: ls2)
            = .ok (mk (pyStrip l1) (pyStrip l2), ls2, [(p1, l1), (p2, l2)]) from rfl] at h
          simp only [Except.ok.injEq, Prod.mk.injEq] at h
          rw [← h.2.2]
          rfl

/-- Running `inpInt p · pure` when `int()` succeeds. -/
theorem runSI (p : String) (mk : Int → Option JVal) (l : String) (ls : List String)
    (n : Int) (hn : pythonInt (pyStrip l) = some n) :
    (mbind (inpInt p) (fun a => mpure (mk a))) (l :: ls)
      = .ok (mk n, ls, [(p, l)]) := by
  simp only [mbind_run, inpInt_cons, hn, mpure_run]
  rfl

/-- Running `inpInt p · pure` when `int()` raises. -/
theorem runSIbad (p : String) (mk : Int → Option JVal) (l : String) (ls : List String)
    (hn : pythonInt (pyStrip l) = none) :
    (mbind (inpInt p) (fun a => mpure (mk a))) (l :: ls)
      = .error (Halt.valueError, [(p, l)]) := by
  simp only [mbind_run, inpInt_cons, hn]

/-- Prompt names of `inpInt p · pure`. -/
theorem promptsOfSI (p : String) (mk : Int → Option JVal) :
    ∀ (lines : List String) (j : Option JVal) (rest : List String)
      (evs : List (String × String)),
      (mbind (inpInt p) (fun a => mpure (mk a))) lines = .ok (j, rest, evs) →
      evs.map Prod.fst = [p] := by
  intro lines j rest evs h
  cases lines with
  | nil =>
      rw [show (mbind (inpInt p) (fun a => mpure (mk a))) ([] : List String)
        = .error (Halt.eof, []) from rfl] at h
      exact absurd h (by simp)
  | cons l ls =>
      cases hn : pythonInt (pyStrip l) with
      | none =>
          rw [runSIbad p mk l ls hn] at h
          exact absurd h (by simp)
      | some n =>
          rw [runSI p mk l ls n hn] at h
          simp only [Except.ok.injEq, Prod.mk.injEq] at h
          rw [← h.2.2]
          rfl

/-- Running `inp p1, inpInt p2 · pure` when `int()` succeeds. -/
theorem runS1I (p1 p2 : String) (mk : String → Int → Option JVal)
    (l1 l2 : String) (ls : List String) (n : Int)
    (hn : pythonInt (pyStrip l2) = some n) :
    (mbind (inp p1) (fun a => mbind (inpInt p2) (fun b => mpure (mk a b))))
        (l1 :: l2 :: ls)
      = .ok (mk (pyStrip l1) n, ls, [(p1, l1), (p2, l2)]) := by
  simp only [mbind_run, inp_cons, inpInt_cons, hn, mpure_run]
  rfl

/-- Running `inp p1, inpInt p2 · pure` when `int()` raises. -/
theorem runS1Ibad (p1 p2 : String) (mk : String → Int → Option JVal)
    (l1 l2 : String) (ls : List String)
    (hn : pythonInt (pyStrip l2) = none) :
    (mbind (inp p1) (fun a => mbind (inpInt p2) (fun b => mpure (mk a b))))
        (l1 :: l2 :: ls)
      = .error (Halt.valueError, [(p1, l1), (p2, l2)]) := by
  simp only [mbind_run, inp_cons, inpInt_cons, hn]
  rfl

/-- Prompt names of `inp p1, inpInt p2 · pure`. -/
theorem promptsOfS1I (p1 p2 : String) (mk : String → Int → Option JVal) :
    ∀ (lines : List String) (j : Option JVal) (rest : List String)
      (evs : List (String × String)),
      (mbind (inp p1) (fun a => mbind (inpInt p2) (fun b => mpure (mk a b)))) lines
        = .ok (j, rest, evs) →
      evs.map Prod.fst = [p1, p2] := by
  intro lines j rest evs h
  cases lines with
  | nil =>
      rw [show (mbind (inp p1) (fun a => mbind (inpInt p2) (fun b => mpure (mk a b))))
        ([] : List String) = .error (Halt.eof, []) from rfl] at h
      exact absurd h (by simp)
  | cons l1 ls1 =>
      cases ls1 with
      | nil =>
          rw [show (mbind (inp p1) (fun a => mbind (inpInt p2) (fun b => mpure (mk a b))))
            [l1] = .error (Halt.eof, [(p1, l1)]) from rfl] at h
          exact absurd h (by simp)
      | cons l2 ls2 =>
          cases hn : pythonInt (pyStrip l2) with
          | none =>
              rw [runS1Ibad p1 p2 mk l1 l2 ls2 hn] at h
              exact absurd h (by simp)
          | some n =>
              rw [runS1I p1 p2 mk l1 l2 ls2 n hn] at h
              simp only [Except.ok.injEq, Prod.mk.injEq] at h
              rw [← h.2.2]
              rfl

/-- Running the `load` shape `inp p1, inpInt p2, inpInt p3, inpInt p4 · pure`
when all three `int()` calls succeed. -/
theorem runS1III (p1 p2 p3 p4 : String) (mk : String → Int → Int → Int → Option JVal)
    (l1 l2 l3 l4 : String) (ls : List String) (n2 n3 n4 : Int)
    (h2 : pythonInt (pyStrip l2) = some n2)
    (h3 : pythonInt (pyStrip l3) = some n3)
    (h4 : pythonInt (pyStrip l4) = some n4) :
    (mbind (inp p1) (fun a => mbind (inpInt p2) (fun b => mbind (inpInt p3)
        (fun c => mbind (inpInt p4) (fun d => mpure (mk a b c d))))))
        (l1 :: l2 :: l3 :: l4 :: ls)
      = .ok (mk (pyStrip l1) n2 n3 n4, ls, [(p1, l1), (p2, l2), (p3, l3), (p4, l4)]) := by
  simp only [mbind_run, inp_cons, inpInt_cons, h2, h3, h4, mpure_run]
  rfl

/-- Running the `load` shape when the first `int()` raises. -/
theorem runS1IIIbad (p1 p2 p3 p4 : String) (mk : String → Int → Int → Int → Option JVal)
    (l1 l2 : String) (ls : List String)
    (h2 : pythonInt (pyStrip l2) = none) :
    (mbind (inp p1) (fun a => mbind (inpInt p2) (fun b => mbind (inpInt p3)
        (fun c => mbind (inpInt p4) (fun d => mpure (mk a b c d))))))
        (l1 :: l2 :: ls)
      = .error (Halt.valueError, [(p1, l1), (p2, l2)]) := by
  simp only [mbind_run, inp_cons, inpInt_cons, h2]
  rfl

/-- Prompt names of the `load` shape. -/
theorem promptsOfS1III (p1 p2 p3 p4 : String)
    (mk : String → Int → Int → Int → Option JVal) :
    ∀ (lines : List String) (j : Option JVal) (rest : List String)
      (evs : List (String × String)),
      (mbind (inp p1) (fun a => mbind (inpInt p2) (fun b => mbind (inpInt p3)
          (fun c => mbind (inpInt p4) (fun d => mpure (mk a b c d)))))) lines
        = .ok (j, rest, evs) →
      evs.map Prod.fst = [p1, p2, p3, p4] := by
  intro lines j rest evs h
  cases lines with
  | nil =>
      rw [show (mbind (inp p1) (fun a => mbind (inpInt p2) (fun b => mbind (inpInt p3)
        (fun c => mbind (inpInt p4) (fun d => mpure (mk a b c d))))))
        ([] : List String) = .error (Halt.eof, []) from rfl] at h
      exact absurd h (by simp)
  | cons l1 ls1 =>
      cases ls1 with
      | nil =>
          rw [show (mbind (inp p1) (fun a => mbind (inpInt p2) (fun b => mbind (inpInt p3)
            (fun c => mbind (inpInt p4) (fun d => mpure (mk a b c d))))))
            [l1] = .error (Halt.eof, [(p1, l1)]) from rfl] at h
          exact absurd h (by simp)
      | cons l2 ls2 =>
          cases hn2 : pythonInt (pyStrip l2) with
          | none =>
              rw [runS1IIIbad p1 p2 p3 p4 mk l1 l2 ls2 hn2] at h
              exact absurd h (by simp)
          | some n2 =>
              cases ls2 with
              | nil =>
                  rw [show (mbind (inp p1) (fun a => mbind (inpInt p2)
                    (fun b => mbind (inpInt p3) (fun c => mbind (inpInt p4)
                    (fun d => mpure (mk a b c d)))))) [l1, l2]
                    = .error (Halt.eof, [(p1, l1), (p2, l2)])
                    from by
                      simp only [mbind_run, inp_cons, inpInt_cons, hn2, inpInt_nil]
                      rfl] at h
                  exact absurd h (by simp)
              | cons l3 ls3 =>
                  cases hn3 : pythonInt (pyStrip l3) with
                  | none =>
                      rw [show (mbind (inp p1) (fun a => mbind (inpInt p2)
                        (fun b => mbind (inpInt p3) (fun c => mbind (inpInt p4)
                        (fun d => mpure (mk a b c d)))))) (l1 :: l2 :: l3 :: ls3)
                        = .error (Halt.valueError, [(p1, l1), (p2, l2), (p3, l3)])
                        from by
                          simp only [mbind_run, inp_cons, inpInt_cons, hn2, hn3]
                          rfl] at h
                      exact absurd h (by simp)
                  | some n3 =>
                      cases ls3 with
                      | nil =>
                          rw [show (mbind (inp p1) (fun a => mbind (inpInt p2)
                            (fun b => mbind (inpInt p3) (fun c => mbind (inpInt p4)
                            (fun d => mpure (mk a b c d)))))) [l1, l2, l3]
                            = .error (Halt.eof, [(p1, l1), (p2, l2), (p3, l3)])
                            from by
                              simp only [mbind_run, inp_cons, inpInt_cons, hn2, hn3,
                                inpInt_nil]
                              rfl] at h
                          exact absurd h (by simp)
                      | cons l4 ls4 =>
                          cases hn4 : pythonInt (pyStrip l4) with
                          | none =>
                              rw [show (mbind (inp p1) (fun a => mbind (inpInt p2)
                                (fun b => mbind (inpInt p3) (fun c => mbind (inpInt p4)
                                (fun d => mpure (mk a b c d))))))
                                (l1 :: l2 :: l3 :: l4 :: ls4)
                                = .error (Halt.valueError,
                                    [(p1, l1), (p2, l2), (p3, l3), (p4, l4)])
                                from by
                                  simp only [mbind_run, inp_cons, inpInt_cons, hn2, hn3,
                                    hn4]
                                  rfl] at h
                              exact absurd h (by simp)
                          | some n4 =>
                              rw [runS1III p1 p2 p3 p4 mk l1 l2 l3 l4 ls4 n2 n3 n4
                                hn2 hn3 hn4] at h
                              simp only [Except.ok.injEq, Prod.mk.injEq] at h
                              rw [← h.2.2]
                              rfl

/-- Prompt names of the `removequeue` shape. -/
theorem promptsOfSM (p : String) (mk : List Int → Option JVal) :
    ∀ (lines : List String) (j : Option JVal) (rest : List String)
      (evs : List (String × String)),
      (mbind (inp p) (fun s => ((pySplitSemi s).mapM pythonInt).elim
          (throwHalt Halt.valueError) (fun ids => mpure (mk ids)))) lines
        = .ok (j, rest, evs) →
      evs.map Prod.fst = [p] := by
  intro lines j rest evs h
  cases lines with
  | nil =>
      rw [show (mbind (inp p) (fun s => ((pySplitSemi s).mapM pythonInt).elim
        (throwHalt Halt.valueError) (fun ids => mpure (mk ids))))
        ([] : List String) = .error (Halt.eof, []) from rfl] at h
      exact absurd h (by simp)
  | cons l ls =>
      cases hm : (pySplitSemi (pyStrip l)).mapM pythonInt with
      | none =>
          rw [show (mbind (inp p) (fun s => ((pySplitSemi s).mapM pythonInt).elim
            (throwHalt Halt.valueError) (fun ids => mpure (mk ids)))) (l :: ls)
            = .error (Halt.valueError, [(p, l)])
            from by
              simp only [mbind_run, inp_cons, hm, Option.elim, throwHalt_run]
              rfl] at h
          exact absurd h (by simp)
      | some ids =>
          rw [show (mbind (inp p) (fun s => ((pySplitSemi s).mapM pythonInt).elim
            (throwHalt Halt.valueError) (fun ids => mpure (mk ids)))) (l :: ls)
            = .ok (mk ids, ls, [(p, l)])
            from by
              simp only [mbind_run, inp_cons, hm, Option.elim, mpure_run]
              rfl] at h
          simp only [Except.ok.injEq, Prod.mk.injEq] at h
          rw [← h.2.2]
          rfl

/-! ### Prompt sequences (C6) -/

/-- The prompt texts of every branch whose prompts are fixed by the command
name alone (all recognized commands except `select` and `unique`). -/
def fixedPromptNames : String → List String
  | "ls" => ["dir: "]
  | "metadata" => ["paths: ", "tags: "]
  | "addqueue" => ["paths: ", "pos: "]
  | "removequeue" => ["ids: "]
  | "play" => ["id: "]
  | "setvol" => ["volume: "]
  | "changevol" => ["delta: "]
  | "seek" => ["seconds: "]
  | "speed" => ["speed: "]
  | "disable" => ["device: "]
  | "enable" => ["device: "]
  | "fromfile" => ["path: "]
  | "save" => ["path: "]
  | "listsongs" => ["playlist: "]
  | "removeplaylist" => ["playlist: ", "pos: "]
  | "load" => ["playlist: ", "range_l: ", "range_r: ", "pos: "]
  | "addplaylist" => ["playlist: ", "song: "]
  | _ => []

/-- The prompt texts of the `select` branch as a function of the two
entered counts. -/
def selectPromptNames (nf nc : Nat) : List String :=
  ["n_filters: "] ++ (List.replicate nf (["tag: ", "regex: "] : List String)).flatten
    ++ ["n_comparators: "] ++ (List.replicate nc (["tag: "] : List String)).flatten

/-- The prompt texts of the `unique` branch as a function of the two
entered counts. -/
def uniquePromptNames (nf ng : Nat) : List String :=
  ["tag: ", "n_filters: "] ++ (List.replicate nf (["tag: ", "regex: "] : List String)).flatten
    ++ ["n_group_by: "] ++ (List.replicate ng (["tag: "] : List String)).flatten

/-- A field-less body issues no prompt. -/
theorem promptsOfS0 (jv : Option JVal) :
    ∀ (lines : List String) (j : Option JVal) (rest : List String)
      (evs : List (String × String)),
      (mpure jv : M (Option JVal)) lines = .ok (j, rest, evs) →
      evs.map Prod.fst = [] := by
  intro lines j rest evs h
  rw [mpure_run] at h
  simp only [Except.ok.injEq, Prod.mk.injEq] at h
  rw [← h.2.2]
  rfl

/-- One step of the filter-reading loop. -/
theorem readFilters_succ (n : Nat) (l0 l1 : String) (ls : List String) :
    readFilters (n + 1) (l0 :: l1 :: ls)
      = match readFilters n ls with
        | .error (h2, e2) => .error (h2, [("tag: ", l0), ("regex: ", l1)] ++ e2)
        | .ok (fs, l3, e2) => .ok (JVal.obj [("kind", JVal.str "regex"),
            ("tag", JVal.str (pyStrip l0)), ("regex", JVal.str (pyStrip l1))] :: fs,
            l3, [("tag: ", l0), ("regex: ", l1)] ++ e2) := by
  simp only [readFilters, mbind_run, inp_cons, mpure_run]
  cases hres : readFilters n ls with
  | error e => obtain ⟨h2, e2⟩ := e; simp
  | ok v => obtain ⟨fs, l3, e2⟩ := v; simp

/-- The filter loop consumes two lines per filter and prompts
`tag: `, `regex: ` each time. -/
theorem readFilters_ok :
    ∀ (n : Nat) (lines : List String) (fs : List JVal) (rest : List String)
      (evs : List (String × String)),
      readFilters n lines = .ok (fs, rest, evs) →
      rest = lines.drop (2 * n)
      ∧ evs.map Prod.fst
          = (List.replicate n (["tag: ", "regex: "] : List String)).flatten := by
  intro n
  induction n with
  | zero =>
      intro lines fs rest evs h
      rw [show readFilters 0 lines = .ok ([], lines, []) from rfl] at h
      simp only [Except.ok.injEq, Prod.mk.injEq] at h
      obtain ⟨h1, h2, h3⟩ := h
      exact ⟨by rw [← h2]; rfl, by rw [← h3]; rfl⟩
  | succ n ih =>
      intro lines fs rest evs h
      cases lines with
      | nil =>
          rw [show readFilters (n + 1) ([] : List String)
            = .error (Halt.eof, []) from rfl] at h
          simp at h
      | cons l0 ls0 =>
          cases ls0 with
          | nil =>
              rw [show readFilters (n + 1) [l0]
                = .error (Halt.eof, [("tag: ", l0)]) from rfl] at h
              simp at h
          | cons l1 ls1 =>
              rw [readFilters_succ n l0 l1 ls1] at h
              cases hres : readFilters n ls1 with
              | error e =>
                  rw [hres] at h
                  obtain ⟨h2, e2⟩ := e
                  simp at h
              | ok v =>
                  obtain ⟨fs2, l3, e2⟩ := v
                  rw [hres] at h
                  simp only [Except.ok.injEq, Prod.mk.injEq] at h
                  obtain ⟨hfs, hrest, hevs⟩ := h
                  obtain ⟨ihrest, ihevs⟩ := ih ls1 fs2 l3 e2 hres
                  constructor
                  · rw [← hrest, ihrest]
                    show ls1.drop (2 * n) = (l0 :: l1 :: ls1).drop (2 * (n + 1))
                    have harith : 2 * (n + 1) = 2 * n + 1 + 1 := by ring
                    rw [harith, List.drop_succ_cons, List.drop_succ_cons]
                  · rw [← hevs]
                    simp only [List.map_append, ihevs, List.replicate_succ,
                      List.flatten_cons]
                    rfl

/-- One step of the comparator-reading loop. -/
theorem readComparators_succ (n : Nat) (l0 : String) (ls : List String) :
    readComparators (n + 1) (l0 :: ls)
      = match readComparators n ls with
        | .error (h2, e2) => .error (h2, [("tag: ", l0)] ++ e2)
        | .ok (cs, l3, e2) => .ok (JVal.obj [("tag", JVal.str (pyStrip l0))] :: cs,
            l3, [("tag: ", l0)] ++ e2) := by
  simp only [readComparators, mbind_run, inp_cons, mpure_run]
  cases hres : readComparators n ls with
  | error e => obtain ⟨h2, e2⟩ := e; simp
  | ok v => obtain ⟨cs, l3, e2⟩ := v; simp

/-- The comparator loop consumes one line per comparator and prompts
`tag: ` each time. -/
theorem readComparators_ok :
    ∀ (n : Nat) (lines : List String) (cs : List JVal) (rest : List String)
      (evs : List (String × String)),
      readComparators n lines = .ok (cs, rest, evs) →
      rest = lines.drop n
      ∧ evs.map Prod.fst = (List.replicate n (["tag: "] : List String)).flatten := by
  intro n
  induction n with
  | zero =>
      intro lines cs rest evs h
      rw [show readComparators 0 lines = .ok ([], lines, []) from rfl] at h
      simp only [Except.ok.injEq, Prod.mk.injEq] at h
      obtain ⟨h1, h2, h3⟩ := h
      exact ⟨by rw [← h2]; rfl, by rw [← h3]; rfl⟩
  | succ n ih =>
      intro lines cs rest evs h
      cases lines with
      | nil =>
          rw [show readComparators (n + 1) ([] : List String)
            = .error (Halt.eof, []) from rfl] at h
          simp at h
      | cons l0 ls0 =>
          rw [readComparators_succ n l0 ls0] at h
          cases hres : readComparators n ls0 with
          | error e =>
              rw [hres] at h
              obtain ⟨h2, e2⟩ := e
              simp at h
          | ok v =>
              obtain ⟨cs2, l3, e2⟩ := v
              rw [hres] at h
              simp only [Except.ok.injEq, Prod.mk.injEq] at h
              obtain ⟨hcs, hrest, hevs⟩ := h
              obtain ⟨ihrest, ihevs⟩ := ih ls0 cs2 l3 e2 hres
              constructor
              · rw [← hrest, ihrest]
                rfl
              · rw [← hevs]
                simp only [List.map_append, ihevs, List.replicate_succ,
                  List.flatten_cons]
                rfl

/-- One step of the group-by-reading loop. -/
theorem readGroupBy_succ (n : Nat) (l0 : String) (ls : List String) :
    readGroupBy (n + 1) (l0 :: ls)
      = match readGroupBy n ls with
        | .error (h2, e2) => .error (h2, [("tag: ", l0)] ++ e2)
        | .ok (gs, l3, e2) => .ok (JVal.str (pyStrip l0) :: gs,
            l3, [("tag: ", l0)] ++ e2) := by
  simp only [readGroupBy, mbind_run, inp_cons, mpure_run]
  cases hres : readGroupBy n ls with
  | error e => obtain ⟨h2, e2⟩ := e; simp
  | ok v => obtain ⟨gs, l3, e2⟩ := v; simp

/-- The group-by loop consumes one line per tag and prompts `tag: ` each
time. -/
theorem readGroupBy_ok :
    ∀ (n : Nat) (lines : List String) (gs : List JVal) (rest : List String)
      (evs : List (String × String)),
      readGroupBy n lines = .ok (gs, rest, evs) →
      rest = lines.drop n
      ∧ evs.map Prod.fst = (List.replicate n (["tag: "] : List String)).flatten := by
  intro n
  induction n with
  | zero =>
      intro lines gs rest evs h
      rw [show readGroupBy 0 lines = .ok ([], lines, []) from rfl] at h
      simp only [Except.ok.injEq, Prod.mk.injEq] at h
      obtain ⟨h1, h2, h3⟩ := h
      exact ⟨by rw [← h2]; rfl, by rw [← h3]; rfl⟩
  | succ n ih =>
      intro lines gs rest evs h
      cases lines with
      | nil =>
          rw [show readGroupBy (n + 1) ([] : List String)
            = .error (Halt.eof, []) from rfl] at h
          simp at h
      | cons l0 ls0 =>
          rw [readGroupBy_succ n l0 ls0] at h
          cases hres : readGroupBy n ls0 with
          | error e =>
              rw [hres] at h
              obtain ⟨h2, e2⟩ := e
              simp at h
          | ok v =>
              obtain ⟨gs2, l3, e2⟩ := v
              rw [hres] at h
              simp only [Except.ok.injEq, Prod.mk.injEq] at h
              obtain ⟨hgs, hrest, hevs⟩ := h
              obtain ⟨ihrest, ihevs⟩ := ih ls0 gs2 l3 e2 hres
              constructor
              · rw [← hrest, ihrest]
                rfl
              · rw [← hevs]
                simp only [List.map_append, ihevs, List.replicate_succ,
                  List.flatten_cons]
                rfl

/-- C6 amended: for every recognized command except `select` and `unique`,
the prompt sequence of a successful iteration is a function of the command
name alone (given by `fixedPromptNames`); for `select` and `unique` it is
determined by the command name together with the integer counts entered at
the `n_filters: ` and `n_comparators: ` / `n_group_by: ` prompts. -/
theorem c6_prompts :
    (∀ (k : String) (lines : List String) (j : JVal) (rest : List String)
        (evs : List (String × String)),
        recognizedKind k = true → k ≠ "select" → k ≠ "unique" →
        parseCmd k lines = .ok (some j, rest, evs) →
        evs.map Prod.fst = fixedPromptNames k)
    ∧ (∀ (lines : List String) (j : JVal) (rest : List String)
        (evs : List (String × String)),
        parseCmd "select" lines = .ok (some j, rest, evs) →
        ∃ nf nc : Int,
          (∃ l0 ls0, lines = l0 :: ls0 ∧ pythonInt (pyStrip l0) = some nf
            ∧ ∃ l1 ls1, ls0.drop (2 * nf.toNat) = l1 :: ls1
              ∧ pythonInt (pyStrip l1) = some nc)
          ∧ evs.map Prod.fst = selectPromptNames nf.toNat nc.toNat)
    ∧ (∀ (lines : List String) (j : JVal) (rest : List String)
        (evs : List (String × String)),
        parseCmd "unique" lines = .ok (some j, rest, evs) →
        ∃ nf ng : Int,
          (∃ lt l0 ls0, lines = lt :: l0 :: ls0 ∧ pythonInt (pyStrip l0) = some nf
            ∧ ∃ l1 ls1, ls0.drop (2 * nf.toNat) = l1 :: ls1
              ∧ pythonInt (pyStrip l1) = some ng)
          ∧ evs.map Prod.fst = uniquePromptNames nf.toNat ng.toNat) := by
  refine ⟨?_, ?_, ?_⟩
  · intro k lines j rest evs hrec hs hu h
    simp only [recognizedKind, Bool.or_eq_true, beq_iff_eq, decide_eq_true_eq,
      or_assoc] at hrec
    rcases hrec with rfl | rfl | rfl | rfl | rfl | rfl | rfl | rfl | rfl | rfl | rfl |
      rfl | rfl | rfl | rfl | rfl | rfl | rfl | rfl | hmem
    · exact promptsOfS1 "dir: " (fun dir => some (JVal.obj
        [("kind", JVal.str "ls"), ("dir", JVal.str dir)])) lines (some j) rest evs h
    · exact promptsOfS2 "paths: " "tags: " (fun paths tags => some (JVal.obj
        [("kind", JVal.str "metadata"),
         ("paths", JVal.arr ((pySplitSemi paths).map JVal.str)),
         ("tags", JVal.arr ((pySplitSemi tags).map JVal.str))]))
        lines (some j) rest evs h
    · exact absurd rfl hs
    · exact absurd rfl hu
    · exact promptsOfS1I "paths: " "pos: " (fun paths pos => some (JVal.obj
        ([("kind", JVal.str "addqueue"),
          ("paths", JVal.arr ((pySplitSemi paths).map JVal.str))]
         ++ (if 0 ≤ pos then [("pos", JVal.int pos)] else []))))
        lines (some j) rest evs h
    · exact promptsOfSM "ids: " (fun ids => some (JVal.obj
        [("kind", JVal.str "removequeue"), ("ids", JVal.arr (ids.map JVal.int))]))
        lines (some j) rest evs h
    · exact promptsOfSI "id: " (fun id => some (JVal.obj
        [("kind", JVal.str "play"), ("id", JVal.int id)])) lines (some j) rest evs h
    · exact promptsOfSI "volume: " (fun volume => some (JVal.obj
        [("kind", JVal.str "setvol"), ("volume", JVal.int volume)]))
        lines (some j) rest evs h
    · exact promptsOfSI "delta: " (fun delta => some (JVal.obj
        [("kind", JVal.str "changevol"), ("delta", JVal.int delta)]))
        lines (some j) rest evs h
    · exact promptsOfSI "seconds: " (fun delta => some (JVal.obj
        [("kind", JVal.str "seek"), ("seconds", JVal.int delta)]))
        lines (some j) rest evs h
    · exact promptsOfSI "speed: " (fun speed => some (JVal.obj
        [("kind", JVal.str "speed"), ("speed", JVal.int speed)]))
        lines (some j) rest evs h
    · exact promptsOfS1 "device: " (fun device => some (JVal.obj
        [("kind", JVal.str "disable"), ("device", JVal.str device)]))
        lines (some j) rest evs h
    · exact promptsOfS1 "device: " (fun device => some (JVal.obj
        [("kind", JVal.str "enable"), ("device", JVal.str device)]))
        lines (some j) rest evs h
    · exact promptsOfS1 "path: " (fun path => some (JVal.obj
        [("kind", JVal.str "fromfile"), ("path", JVal.str path)]))
        lines (some j) rest evs h
    · exact promptsOfS1 "path: " (fun path => some (JVal.obj
        [("kind", JVal.str "save"), ("path", JVal.str path)]))
        lines (some j) rest evs h
    · exact promptsOfS1 "playlist: " (fun playlist => some (JVal.obj
        [("kind", JVal.str "listsongs"), ("playlist", JVal.str playlist)]))
        lines (some j) rest evs h
    · exact promptsOfS1I "playlist: " "pos: " (fun playlist pos => some (JVal.obj
        [("kind", JVal.str "removeplaylist"), ("playlist", JVal.str playlist),
         ("pos", JVal.int pos)])) lines (some j) rest evs h
    · exact promptsOfS1III "playlist: " "range_l: " "range_r: " "pos: "
        (fun playlist range_l range_r pos => some (JVal.obj
          ([("kind", JVal.str "load"), ("playlist", JVal.str playlist)]
           ++ (if 0 ≤ range_l ∧ 0 ≤ range_r then
                [("range", JVal.arr [JVal.int range_l, JVal.int range_r])] else [])
           ++ (if 0 ≤ pos then [("pos", JVal.int pos)] else []))))
        lines (some j) rest evs h
    · exact promptsOfS2 "playlist: " "song: " (fun playlist song => some (JVal.obj
        [("kind", JVal.str "addplaylist"), ("playlist", JVal.str playlist),
         ("song", JVal.str song)])) lines (some j) rest evs h
    · fin_cases hmem <;> exact promptsOfS0 _ lines (some j) rest evs h
  · intro lines j rest evs h
    have h' : selectBody lines = .ok (some j, rest, evs) := h
    cases lines with
    | nil =>
        rw [show selectBody ([] : List String) = .error (Halt.eof, []) from rfl] at h'
        simp at h'
    | cons l0 ls0 =>
        cases hnf : pythonInt (pyStrip l0) with
        | none =>
            rw [show selectBody (l0 :: ls0)
              = .error (Halt.valueError, [("n_filters: ", l0)]) from by
                simp only [selectBody, mbind_run, inpInt_cons, hnf]] at h'
            simp at h'
        | some nf =>
            cases hrf : readFilters nf.toNat ls0 with
            | error e =>
                obtain ⟨eh, ee⟩ := e
                rw [show selectBody (l0 :: ls0)
                  = .error (eh, [("n_filters: ", l0)] ++ ee) from by
                    simp only [selectBody, mbind_run, inpInt_cons, hnf, hrf]] at h'
                simp at h'
            | ok v =>
                obtain ⟨fs, l2, e2⟩ := v
                cases l2 with
                | nil =>
                    rw [show selectBody (l0 :: ls0)
                      = .error (Halt.eof, [("n_filters: ", l0)] ++ (e2 ++ [])) from by
                        simp only [selectBody, mbind_run, inpInt_cons, hnf, hrf,
                          inpInt_nil]] at h'
                    simp at h'
                | cons l1 ls1 =>
                    cases hnc : pythonInt (pyStrip l1) with
                    | none =>
                        rw [show selectBody (l0 :: ls0)
                          = .error (Halt.valueError, [("n_filters: ", l0)]
                              ++ (e2 ++ [("n_comparators: ", l1)])) from by
                            simp only [selectBody, mbind_run, inpInt_cons, hnf, hrf,
                              hnc]] at h'
                        simp at h'
                    | some nc =>
                        cases hrc : readComparators nc.toNat ls1 with
                        | error e =>
                            obtain ⟨eh, ee⟩ := e
                            rw [show selectBody (l0 :: ls0)
                              = .error (eh, [("n_filters: ", l0)]
                                  ++ (e2 ++ ([("n_comparators: ", l1)] ++ ee))) from by
                                simp only [selectBody, mbind_run, inpInt_cons, hnf,
                                  hrf, hnc, hrc]] at h'
                            simp at h'
                        | ok w =>
                            obtain ⟨cs, l4, e4⟩ := w
                            rw [show selectBody (l0 :: ls0)
                              = .ok (some (JVal.obj [("kind", JVal.str "select"),
                                    ("filters", JVal.arr fs),
                                    ("comparators", JVal.arr cs)]), l4,
                                  [("n_filters: ", l0)]
                                    ++ (e2 ++ ([("n_comparators: ", l1)]
                                      ++ (e4 ++ [])))) from by
                                simp only [selectBody, mbind_run, inpInt_cons, hnf,
                                  hrf, hnc, hrc, mpure_run]] at h'
                            simp only [Except.ok.injEq, Prod.mk.injEq] at h'
                            obtain ⟨hj, hrest, hevs⟩ := h'
                            obtain ⟨hfr, hfe⟩ := readFilters_ok nf.toNat ls0 fs
                              (l1 :: ls1) e2 hrf
                            refine ⟨nf, nc, ⟨l0, ls0, rfl, hnf, l1, ls1,
                              hfr.symm, hnc⟩, ?_⟩
                            obtain ⟨hcr, hce⟩ := readComparators_ok nc.toNat ls1 cs
                              l4 e4 hrc
                            rw [← hevs]
                            simp only [List.map_append, hfe, hce, List.append_nil,
                              List.map_nil]
                            unfold selectPromptNames
                            simp
  · intro lines j rest evs h
    have h' : uniqueBody lines = .ok (some j, rest, evs) := h
    cases lines with
    | nil =>
        rw [show uniqueBody ([] : List String) = .error (Halt.eof, []) from rfl] at h'
        simp at h'
    | cons lt ls =>
        cases ls with
        | nil =>
            rw [show uniqueBody [lt] = .error (Halt.eof, [("tag: ", lt)]) from rfl] at h'
            simp at h'
        | cons l0 ls0 =>
            cases hnf : pythonInt (pyStrip l0) with
            | none =>
                rw [show uniqueBody (lt :: l0 :: ls0)
                  = .error (Halt.valueError, [("tag: ", lt)]
                      ++ [("n_filters: ", l0)]) from by
                    simp only [uniqueBody, mbind_run, inp_cons, inpInt_cons,
                      hnf]] at h'
                simp at h'
            | some nf =>
                cases hrf : readFilters nf.toNat ls0 with
                | error e =>
                    obtain ⟨eh, ee⟩ := e
                    rw [show uniqueBody (lt :: l0 :: ls0)
                      = .error (eh, [("tag: ", lt)]
                          ++ ([("n_filters: ", l0)] ++ ee)) from by
                        simp only [uniqueBody, mbind_run, inp_cons, inpInt_cons,
                          hnf, hrf]] at h'
                    simp at h'
                | ok v =>
                    obtain ⟨fs, l2, e2⟩ := v
                    cases l2 with
                    | nil =>
                        rw [show uniqueBody (lt :: l0 :: ls0)
                          = .error (Halt.eof, [("tag: ", lt)]
                              ++ ([("n_filters: ", l0)] ++ (e2 ++ []))) from by
                            simp only [uniqueBody, mbind_run, inp_cons, inpInt_cons,
                              hnf, hrf, inpInt_nil]] at h'
                        simp at h'
                    | cons l1 ls1 =>
                        cases hng : pythonInt (pyStrip l1) with
                        | none =>
                            rw [show uniqueBody (lt :: l0 :: ls0)
                              = .error (Halt.valueError, [("tag: ", lt)]
                                  ++ ([("n_filters: ", l0)]
                                    ++ (e2 ++ [("n_group_by: ", l1)]))) from by
                                simp only [uniqueBody, mbind_run, inp_cons,
                                  inpInt_cons, hnf, hrf, hng]] at h'
                            simp at h'
                        | some ng =>
                            cases hrg : readGroupBy ng.toNat ls1 with
                            | error e =>
                                obtain ⟨eh, ee⟩ := e
                                rw [show uniqueBody (lt :: l0 :: ls0)
                                  = .error (eh, [("tag: ", lt)]
                                      ++ ([("n_filters: ", l0)]
                                        ++ (e2 ++ ([("n_group_by: ", l1)]
                                          ++ ee)))) from by
                                    simp only [uniqueBody, mbind_run, inp_cons,
                                      inpInt_cons, hnf, hrf, hng, hrg]] at h'
                                simp at h'
                            | ok w =>
                                obtain ⟨gs, l4, e4⟩ := w
                                rw [show uniqueBody (lt :: l0 :: ls0)
                                  = .ok (some (JVal.obj [("kind", JVal.str "unique"),
                                        ("tag", JVal.str (pyStrip lt)),
                                        ("filters", JVal.arr fs),
                                        ("group_by", JVal.arr gs)]), l4,
                                      [("tag: ", lt)]
                                        ++ ([("n_filters: ", l0)]
                                          ++ (e2 ++ ([("n_group_by: ", l1)]
                                            ++ (e4 ++ []))))) from by
                                    simp only [uniqueBody, mbind_run, inp_cons,
                                      inpInt_cons, hnf, hrf, hng, hrg,
                                      mpure_run]] at h'
                                simp only [Except.ok.injEq, Prod.mk.injEq] at h'
                                obtain ⟨hj, hrest, hevs⟩ := h'
                                obtain ⟨hfr, hfe⟩ := readFilters_ok nf.toNat ls0 fs
                                  (l1 :: ls1) e2 hrf
                                refine ⟨nf, ng, ⟨lt, l0, ls0, rfl, hnf, l1, ls1,
                                  hfr.symm, hng⟩, ?_⟩
                                obtain ⟨hgr, hge⟩ := readGroupBy_ok ng.toNat ls1 gs
                                  l4 e4 hrg
                                rw [← hevs]
                                simp only [List.map_append, hfe, hge,
                                  List.append_nil, List.map_nil]
                                unfold uniquePromptNames
                                simp

/-- Prompt text of a prompt event. -/
def evPrompt : Event → Option String
  | Event.prompt p _ => some p
  | _ => none

/-- C6 counterexample: two iterations both entered as `select` — differing
only in the value typed at the `n_filters: ` prompt (0 versus 1) — issue
different prompt sequences, so the set of prompted fields is not determined
by the command name alone. -/
theorem c6_counterexample :
    (iterStep zeroStream 0 "select" ["0", "0"]).events.filterMap evPrompt
        = ["kind: ", "n_filters: ", "n_comparators: "]
    ∧ (iterStep zeroStream 0 "select" ["1", "t", "r", "0"]).events.filterMap evPrompt
        = ["kind: ", "n_filters: ", "tag: ", "regex: ", "n_comparators: "]
    ∧ (["kind: ", "n_filters: ", "n_comparators: "] : List String)
        ≠ ["kind: ", "n_filters: ", "tag: ", "regex: ", "n_comparators: "] := by
  decide

/-- Witness for the amended C6 at the fixed-prompt command `ls`. -/
theorem c6_witness :
    recognizedKind "ls" = true
    ∧ ("ls" : String) ≠ "select"
    ∧ ("ls" : String) ≠ "unique"
    ∧ parseCmd "ls" ["d"] = .ok (some (JVal.obj [("kind", JVal.str "ls"),
        ("dir", JVal.str "d")]), [], [("dir: ", "d")])
    ∧ ([("dir: ", "d")] : List (String × String)).map Prod.fst
        = fixedPromptNames "ls" :=
  ⟨by decide, by decide, by decide, by rfl,
   c6_prompts.1 "ls" ["d"] (JVal.obj [("kind", JVal.str "ls"), ("dir", JVal.str "d")])
     [] [("dir: ", "d")] (by decide) (by decide) (by decide) (by rfl)⟩

/-! ### Uncaught `int()` exceptions (C8) -/

/-- The iteration died of an uncaught exception: nothing was sent over the
socket and `invalid request` was not printed. -/
def crashedNoSend (r : IterOut) : Prop :=
  r.halted = true ∧ sentStream r.events = [] ∧ Event.printInvalid ∉ r.events

/-- Any reading-phase exception yields a `crashedNoSend` iteration. -/
theorem crashedNoSend_of_error (st : Nat → Nat) (pos : Nat) (kindRaw : String)
    (lines : List String) (hl : Halt) (evs : List (String × String))
    (h : parseCmd (pyStrip kindRaw) lines = .error (hl, evs)) :
    crashedNoSend (iterStep st pos kindRaw lines) := by
  rw [iterStep_error st pos kindRaw lines hl evs h]
  refine ⟨rfl, sentStream_kindPrompts kindRaw evs, ?_⟩
  intro hm
  rcases List.mem_cons.mp hm with he | hm2
  · exact Event.noConfusion he
  · obtain ⟨pe, -, hpe⟩ := List.mem_map.mp hm2
    exact Event.noConfusion hpe

/-- C8: for every recognized command with a numeric field, a console entry
whose `int()` fails — at whichever of the branch's numeric prompts it is
entered: `n_filters`, `n_comparators`, `n_group_by`, `pos`, `id`, `ids`,
`volume`, `delta`, `seconds`, `speed`, `range_l`, `range_r` — kills the
client with an uncaught `ValueError` before anything is sent: no bytes
reach the socket, and `invalid request` is not printed.  The later prompts
of a branch are covered with the preceding fields arbitrary: any `select` /
`unique` count and filter block ending just before the bad entry, any
accepted `range_l` / `range_r` values before load's bad `range_r` / `pos`.
(For the list field `ids` of `removequeue`, a piece of the
semicolon-separated entry must fail `int()`.) -/
theorem c8_int_crash (st : Nat → Nat) (pos : Nat) (bad : String) (ls : List String)
    (hbad : pythonInt (pyStrip bad) = none) :
    crashedNoSend (iterStep st pos "select" (bad :: ls))
    ∧ (∀ tagLine : String,
        crashedNoSend (iterStep st pos "unique" (tagLine :: bad :: ls)))
    ∧ (∀ pathsLine : String,
        crashedNoSend (iterStep st pos "addqueue" (pathsLine :: bad :: ls)))
    ∧ ((pySplitSemi (pyStrip bad)).mapM pythonInt = none →
        crashedNoSend (iterStep st pos "removequeue" (bad :: ls)))
    ∧ crashedNoSend (iterStep st pos "play" (bad :: ls))
    ∧ crashedNoSend (iterStep st pos "setvol" (bad :: ls))
    ∧ crashedNoSend (iterStep st pos "changevol" (bad :: ls))
    ∧ crashedNoSend (iterStep st pos "seek" (bad :: ls))
    ∧ crashedNoSend (iterStep st pos "speed" (bad :: ls))
    ∧ (∀ pl : String,
        crashedNoSend (iterStep st pos "removeplaylist" (pl :: bad :: ls)))
    ∧ (∀ pl : String, crashedNoSend (iterStep st pos "load" (pl :: bad :: ls)))
    ∧ (∀ (l0 : String) (nf : Int) (mid ls1 : List String) (fs : List JVal)
          (e2 : List (String × String)),
        pythonInt (pyStrip l0) = some nf →
        readFilters nf.toNat mid = .ok (fs, bad :: ls1, e2) →
        crashedNoSend (iterStep st pos "select" (l0 :: mid)))
    ∧ (∀ (lt l0 : String) (nf : Int) (mid ls1 : List String) (fs : List JVal)
          (e2 : List (String × String)),
        pythonInt (pyStrip l0) = some nf →
        readFilters nf.toNat mid = .ok (fs, bad :: ls1, e2) →
        crashedNoSend (iterStep st pos "unique" (lt :: l0 :: mid)))
    ∧ (∀ (pl rlLine : String) (rl : Int) (ls1 : List String),
        pythonInt (pyStrip rlLine) = some rl →
        crashedNoSend (iterStep st pos "load" (pl :: rlLine :: bad :: ls1)))
    ∧ (∀ (pl rlLine rrLine : String) (rl rr : Int) (ls1 : List String),
        pythonInt (pyStrip rlLine) = some rl →
        pythonInt (pyStrip rrLine) = some rr →
        crashedNoSend (iterStep st pos "load" (pl :: rlLine :: rrLine :: bad :: ls1))) := by
  refine ⟨?_, ?_, ?_, ?_, ?_, ?_, ?_, ?_, ?_, ?_, ?_, ?_, ?_, ?_, ?_⟩
  · refine crashedNoSend_of_error st pos "select" (bad :: ls) Halt.valueError
      [("n_filters: ", bad)] ?_
    show selectBody (bad :: ls) = _
    simp only [selectBody, mbind_run, inpInt_cons, hbad]
  · intro tagLine
    refine crashedNoSend_of_error st pos "unique" (tagLine :: bad :: ls)
      Halt.valueError [("tag: ", tagLine), ("n_filters: ", bad)] ?_
    show uniqueBody (tagLine :: bad :: ls) = _
    simp only [uniqueBody, mbind_run, inp_cons, inpInt_cons, hbad]
    rfl
  · intro pathsLine
    refine crashedNoSend_of_error st pos "addqueue" (pathsLine :: bad :: ls)
      Halt.valueError [("paths: ", pathsLine), ("pos: ", bad)] ?_
    exact runS1Ibad "paths: " "pos: "
      (fun paths pos => some (JVal.obj
        ([("kind", JVal.str "addqueue"),
          ("paths", JVal.arr ((pySplitSemi paths).map JVal.str))]
         ++ (if 0 ≤ pos then [("pos", JVal.int pos)] else []))))
      pathsLine bad ls hbad
  · intro hm
    refine crashedNoSend_of_error st pos "removequeue" (bad :: ls)
      Halt.valueError [("ids: ", bad)] ?_
    show removequeueBody (bad :: ls) = _
    simp only [removequeueBody, mbind_run, inp_cons, hm, Option.elim, throwHalt_run]
    rfl
  · refine crashedNoSend_of_error st pos "play" (bad :: ls) Halt.valueError
      [("id: ", bad)] ?_
    exact runSIbad "id: " (fun id => some (JVal.obj
      [("kind", JVal.str "play"), ("id", JVal.int id)])) bad ls hbad
  · refine crashedNoSend_of_error st pos "setvol" (bad :: ls) Halt.valueError
      [("volume: ", bad)] ?_
    exact runSIbad "volume: " (fun volume => some (JVal.obj
      [("kind", JVal.str "setvol"), ("volume", JVal.int volume)])) bad ls hbad
  · refine crashedNoSend_of_error st pos "changevol" (bad :: ls) Halt.valueError
      [("delta: ", bad)] ?_
    exact runSIbad "delta: " (fun delta => some (JVal.obj
      [("kind", JVal.str "changevol"), ("delta", JVal.int delta)])) bad ls hbad
  · refine crashedNoSend_of_error st pos "seek" (bad :: ls) Halt.valueError
      [("seconds: ", bad)] ?_
    exact runSIbad "seconds: " (fun delta => some (JVal.obj
      [("kind", JVal.str "seek"), ("seconds", JVal.int delta)])) bad ls hbad
  · refine crashedNoSend_of_error st pos "speed" (bad :: ls) Halt.valueError
      [("speed: ", bad)] ?_
    exact runSIbad "speed: " (fun speed => some (JVal.obj
      [("kind", JVal.str "speed"), ("speed", JVal.int speed)])) bad ls hbad
  · intro pl
    refine crashedNoSend_of_error st pos "removeplaylist" (pl :: bad :: ls)
      Halt.valueError [("playlist: ", pl), ("pos: ", bad)] ?_
    exact runS1Ibad "playlist: " "pos: " (fun playlist pos => some (JVal.obj
      [("kind", JVal.str "removeplaylist"), ("playlist", JVal.str playlist),
       ("pos", JVal.int pos)])) pl bad ls hbad
  · intro pl
    refine crashedNoSend_of_error st pos "load" (pl :: bad :: ls)
      Halt.valueError [("playlist: ", pl), ("range_l: ", bad)] ?_
    exact runS1IIIbad "playlist: " "range_l: " "range_r: " "pos: "
      (fun playlist range_l range_r pos => some (JVal.obj
        ([("kind", JVal.str "load"), ("playlist", JVal.str playlist)]
         ++ (if 0 ≤ range_l ∧ 0 ≤ range_r then
              [("range", JVal.arr [JVal.int range_l, JVal.int range_r])] else [])
         ++ (if 0 ≤ pos then [("pos", JVal.int pos)] else []))))
      pl bad ls hbad
  · intro l0 nf mid ls1 fs e2 hnf hrf
    refine crashedNoSend_of_error st pos "select" (l0 :: mid) Halt.valueError
      ([("n_filters: ", l0)] ++ (e2 ++ [("n_comparators: ", bad)])) ?_
    show selectBody (l0 :: mid) = _
    simp only [selectBody, mbind_run, inpInt_cons, hnf, hrf, hbad]
  · intro lt l0 nf mid ls1 fs e2 hnf hrf
    refine crashedNoSend_of_error st pos "unique" (lt :: l0 :: mid) Halt.valueError
      ([("tag: ", lt)] ++ ([("n_filters: ", l0)] ++ (e2 ++ [("n_group_by: ", bad)]))) ?_
    show uniqueBody (lt :: l0 :: mid) = _
    simp only [uniqueBody, mbind_run, inp_cons, inpInt_cons, hnf, hrf, hbad]
  · intro pl rlLine rl ls1 hrl
    refine crashedNoSend_of_error st pos "load" (pl :: rlLine :: bad :: ls1)
      Halt.valueError
      ([("playlist: ", pl)] ++ ([("range_l: ", rlLine)] ++ [("range_r: ", bad)])) ?_
    show loadBody (pl :: rlLine :: bad :: ls1) = _
    simp only [loadBody, mbind_run, inp_cons, inpInt_cons, hrl, hbad]
  · intro pl rlLine rrLine rl rr ls1 hrl hrr
    refine crashedNoSend_of_error st pos "load" (pl :: rlLine :: rrLine :: bad :: ls1)
      Halt.valueError
      ([("playlist: ", pl)] ++ ([("range_l: ", rlLine)]
        ++ ([("range_r: ", rrLine)] ++ [("pos: ", bad)]))) ?_
    show loadBody (pl :: rlLine :: rrLine :: bad :: ls1) = _
    simp only [loadBody, mbind_run, inp_cons, inpInt_cons, hrl, hrr, hbad]

/-- Witness for C8 at the non-integer entry `abc`, both at a first numeric
prompt (`play`'s `id`) and at a later one (`select`'s `n_comparators`,
after an accepted `n_filters` of 0). -/
theorem c8_witness :
    pythonInt (pyStrip "abc") = none
    ∧ (pySplitSemi (pyStrip "abc")).mapM pythonInt = none
    ∧ pythonInt (pyStrip "0") = some 0
    ∧ readFilters (Int.toNat 0) ["abc"] = .ok ([], ["abc"], [])
    ∧ crashedNoSend (iterStep zeroStream 0 "play" ["abc"])
    ∧ crashedNoSend (iterStep zeroStream 0 "select" ["0", "abc"]) :=
  ⟨by decide, by decide, by decide, by rfl,
   (c8_int_crash zeroStream 0 "abc" [] (by decide)).2.2.2.2.1,
   (c8_int_crash zeroStream 0 "abc" [] (by decide)).2.2.2.2.2.2.2.2.2.2.2.1
     "0" 0 ["abc"] [] [] [] (by decide) (by rfl)⟩

/-! ### Negative numbers as omission sentinels (C9) -/

/-- C9: in an `addqueue` request the `"pos"` key is present iff the entered
`pos` is nonnegative; in a `load` request the `"range"` key is present —
with value `[range_l, range_r]` — iff both entered bounds are nonnegative,
and the `"pos"` key iff the entered `pos` is nonnegative; the remaining
keys of both requests are always present, in insertion order. -/
theorem c9_optional_keys :
    (∀ (l1 l2 : String) (ls : List String) (j : JVal) (rest : List String)
        (evs : List (String × String)) (p : Int),
        parseCmd "addqueue" (l1 :: l2 :: ls) = .ok (some j, rest, evs) →
        pythonInt (pyStrip l2) = some p →
        jKeys j = ["kind", "paths"] ++ (if 0 ≤ p then ["pos"] else [])
        ∧ ("pos" ∈ jKeys j ↔ 0 ≤ p)
        ∧ jGet j "pos" = (if 0 ≤ p then some (JVal.int p) else none))
    ∧ (∀ (l1 l2 l3 l4 : String) (ls : List String) (j : JVal) (rest : List String)
        (evs : List (String × String)) (rl rr p : Int),
        parseCmd "load" (l1 :: l2 :: l3 :: l4 :: ls) = .ok (some j, rest, evs) →
        pythonInt (pyStrip l2) = some rl →
        pythonInt (pyStrip l3) = some rr →
        pythonInt (pyStrip l4) = some p →
        jKeys j = ["kind", "playlist"]
            ++ (if 0 ≤ rl ∧ 0 ≤ rr then ["range"] else [])
            ++ (if 0 ≤ p then ["pos"] else [])
        ∧ ("range" ∈ jKeys j ↔ (0 ≤ rl ∧ 0 ≤ rr))
        ∧ ("pos" ∈ jKeys j ↔ 0 ≤ p)
        ∧ jGet j "range" = (if 0 ≤ rl ∧ 0 ≤ rr then
            some (JVal.arr [JVal.int rl, JVal.int rr]) else none)) := by
  constructor
  · intro l1 l2 ls j rest evs p h hp
    have key : parseCmd "addqueue" (l1 :: l2 :: ls)
        = .ok (some (JVal.obj ([("kind", JVal.str "addqueue"),
            ("paths", JVal.arr ((pySplitSemi (pyStrip l1)).map JVal.str))]
            ++ (if 0 ≤ p then [("pos", JVal.int p)] else []))), ls,
            [("paths: ", l1), ("pos: ", l2)]) :=
      runS1I "paths: " "pos: " (fun paths pos => some (JVal.obj
        ([("kind", JVal.str "addqueue"),
          ("paths", JVal.arr ((pySplitSemi paths).map JVal.str))]
         ++ (if 0 ≤ pos then [("pos", JVal.int pos)] else [])))) l1 l2 ls p hp
    rw [key] at h
    simp only [Except.ok.injEq, Prod.mk.injEq, Option.some.injEq] at h
    obtain ⟨hj, -, -⟩ := h
    subst hj
    by_cases hp0 : 0 ≤ p
    · simp only [if_pos hp0]
      exact ⟨rfl, iff_of_true
        (by show ("pos" : String) ∈ ["kind", "paths", "pos"]; decide) hp0, rfl⟩
    · simp only [if_neg hp0]
      exact ⟨rfl, iff_of_false
        (by show ¬(("pos" : String) ∈ ["kind", "paths"]); decide) hp0, rfl⟩
  · intro l1 l2 l3 l4 ls j rest evs rl rr p h h2 h3 h4
    have key : parseCmd "load" (l1 :: l2 :: l3 :: l4 :: ls)
        = .ok (some (JVal.obj ([("kind", JVal.str "load"),
            ("playlist", JVal.str (pyStrip l1))]
            ++ (if 0 ≤ rl ∧ 0 ≤ rr then
                 [("range", JVal.arr [JVal.int rl, JVal.int rr])] else [])
            ++ (if 0 ≤ p then [("pos", JVal.int p)] else []))), ls,
            [("playlist: ", l1), ("range_l: ", l2), ("range_r: ", l3), ("pos: ", l4)]) :=
      runS1III "playlist: " "range_l: " "range_r: " "pos: "
        (fun playlist range_l range_r pos => some (JVal.obj
          ([("kind", JVal.str "load"), ("playlist", JVal.str playlist)]
           ++ (if 0 ≤ range_l ∧ 0 ≤ range_r then
                [("range", JVal.arr [JVal.int range_l, JVal.int range_r])] else [])
           ++ (if 0 ≤ pos then [("pos", JVal.int pos)] else []))))
        l1 l2 l3 l4 ls rl rr p h2 h3 h4
    rw [key] at h
    simp only [Except.ok.injEq, Prod.mk.injEq, Option.some.injEq] at h
    obtain ⟨hj, -, -⟩ := h
    subst hj
    by_cases hq : 0 ≤ rl ∧ 0 ≤ rr
    · by_cases hp0 : 0 ≤ p
      · simp only [if_pos hq, if_pos hp0]
        exact ⟨rfl,
          iff_of_true
            (by show ("range" : String) ∈ ["kind", "playlist", "range", "pos"]; decide) hq,
          iff_of_true
            (by show ("pos" : String) ∈ ["kind", "playlist", "range", "pos"]; decide) hp0,
          rfl⟩
      · simp only [if_pos hq, if_neg hp0]
        exact ⟨rfl,
          iff_of_true
            (by show ("range" : String) ∈ ["kind", "playlist", "range"]; decide) hq,
          iff_of_false
            (by show ¬(("pos" : String) ∈ ["kind", "playlist", "range"]); decide) hp0,
          rfl⟩
    · by_cases hp0 : 0 ≤ p
      · simp only [if_neg hq, if_pos hp0]
        exact ⟨rfl,
          iff_of_false
            (by show ¬(("range" : String) ∈ ["kind", "playlist", "pos"]); decide) hq,
          iff_of_true
            (by show ("pos" : String) ∈ ["kind", "playlist", "pos"]; decide) hp0,
          rfl⟩
      · simp only [if_neg hq, if_neg hp0]
        exact ⟨rfl,
          iff_of_false
            (by show ¬(("range" : String) ∈ ["kind", "playlist"]); decide) hq,
          iff_of_false
            (by show ¬(("pos" : String) ∈ ["kind", "playlist"]); decide) hp0,
          rfl⟩

/-- The request built by `addqueue` with paths `a;b` and pos `3`. -/
def jAdd3 : JVal :=
  JVal.obj [("kind", JVal.str "addqueue"),
    ("paths", JVal.arr [JVal.str "a", JVal.str "b"]), ("pos", JVal.int 3)]

/-- Witness for C9 at `addqueue` with paths `a;b` and pos `3`. -/
theorem c9_witness :
    parseCmd "addqueue" ["a;b", "3"]
        = .ok (some jAdd3, [], [("paths: ", "a;b"), ("pos: ", "3")])
    ∧ pythonInt (pyStrip "3") = some 3
    ∧ jKeys jAdd3 = ["kind", "paths"] ++ (if (0 : Int) ≤ 3 then ["pos"] else []) :=
  ⟨by rfl, by decide,
   (c9_optional_keys.1 "a;b" "3" [] jAdd3 [] [("paths: ", "a;b"), ("pos: ", "3")] 3
     (by rfl) (by decide)).1⟩

end Musing
